import Mathlib

/-!
HG659 client: the quirks layer and the session client.

A shallow embedding of the Go packages `hg659` (`client.go`) and
`hg659/internal/quirks` (`auth.go`, `csrf.go`, `json.go`).

Conventions of the embedding.

* A Go `string` and a Go `[]byte` are both finite byte sequences: `List Byte`.
* A Go function returning `(T, error)` returns a `Res T`: a value with a nil
  error, a non-nil error, or a run-time panic (index or slice bounds out of
  range, nil dereference).
* Standard-library and third-party calls (`net/http`, `encoding/json`,
  `net/url`, `net`, `golang.org/x/net/html`) are the fields of `Env`; the
  encoders `encoding/hex`, `encoding/base64`, `crypto/sha256` and the searches
  `bytes.Index`, `strings.TrimSuffix` are written out, since the claims are
  about the bytes they produce.
-/

namespace HG659

/-! ## Bytes, strings, results -/

/-- One octet. -/
abbrev Byte := Fin 256

/-- Go `string`: an immutable byte sequence. -/
abbrev GoString := List Byte

/-- UTF-8 encoding of one code point, as the Go compiler stores string literals. -/
def utf8Bytes (ch : Char) : List Byte :=
  let n := ch.toNat
  if n < 0x80 then [Fin.ofNat n]
  else if n < 0x800 then [Fin.ofNat (0xC0 + n / 64), Fin.ofNat (0x80 + n % 64)]
  else if n < 0x10000 then
    [Fin.ofNat (0xE0 + n / 4096), Fin.ofNat (0x80 + n / 64 % 64), Fin.ofNat (0x80 + n % 64)]
  else
    [Fin.ofNat (0xF0 + n / 262144), Fin.ofNat (0x80 + n / 4096 % 64),
     Fin.ofNat (0x80 + n / 64 % 64), Fin.ofNat (0x80 + n % 64)]

/-- The bytes of a Go string literal. -/
def str (s : String) : GoString :=
  s.data.flatMap utf8Bytes

/-- Go `error` value: only its message is observable here. -/
structure GoError where
  msg : GoString
deriving DecidableEq, Repr

/-- Outcome of a Go call of type `(T, error)`. -/
inductive Res (α : Type) where
  /-- returned `(v, nil)` -/
  | ok : α → Res α
  /-- returned `(zero, err)` with `err != nil` -/
  | error : GoError → Res α
  /-- did not return: run-time panic -/
  | panic : Res α
deriving DecidableEq, Repr

/-- Go `io.Reader` seen through `ioutil.ReadAll`: all the bytes, or the read error. -/
abbrev Reader := Except GoError (List Byte)

/-! ## `bytes.Index` and slicing -/

/-- Position of the first place where `sep` is a prefix of the rest of `s`. -/
def search (sep : List Byte) : List Byte → Option Nat
  | [] => if sep.isPrefixOf [] then some 0 else none
  | b :: t =>
    if sep.isPrefixOf (b :: t) then some 0
    else (search sep t).map (· + 1)

/-- Go `bytes.Index(s, sep)`: index of the first instance of `sep` in `s`, or `-1`. -/
def bytes.Index (s sep : List Byte) : Int :=
  match search sep s with
  | some k => (k : Int)
  | none => -1

/-- Go slice expression `data[lo:hi]` on a slice whose capacity is at least its
length: panics (`none`) unless `0 ≤ lo ≤ hi ≤ cap`. Every `hi` used below is an
index returned by `bytes.Index`, hence at most `len data`, so testing against the
length is the same as testing against the capacity. -/
def slice (data : List Byte) (lo hi : Int) : Option (List Byte) :=
  if 0 ≤ lo ∧ lo ≤ hi ∧ hi ≤ (data.length : Int) then
    some ((data.take hi.toNat).drop lo.toNat)
  else none

/-! ## `quirks/json.go` -/

/-- Go `quirks.ReadAll`: the contents between the first `/*` and the first `*/`. -/
def ReadAll (r : Reader) : Res (List Byte) :=
  match r with
  | .error err => .error err
  | .ok data =>
    let start := bytes.Index data (str "/*")
    let end' := bytes.Index data (str "*/")
    if start = -1 ∨ end' = -1 then .ok data
    else
      match slice data (start + 2) end' with
      | some inner => .ok inner
      | none => .panic

/-! ## `quirks/csrf.go` -/

/-- CSRF holds the Cross-Site Request Forgery parameter and token. -/
structure CSRF where
  Param : GoString
  Token : GoString
deriving DecidableEq, Repr

/-- Go `html.NodeType`. -/
inductive NodeType where
  | ErrorNode | TextNode | DocumentNode | ElementNode | CommentNode | DoctypeNode | RawNode
deriving DecidableEq, Repr

/-- Go `html.Attribute`. -/
structure Attribute where
  Namespace : GoString
  Key : GoString
  Val : GoString
deriving DecidableEq, Repr

/-- Go `html.Node`: the `FirstChild`/`NextSibling` chain is the list `children`. -/
inductive Node where
  | mk (ty : NodeType) (data : GoString) (attr : List Attribute) (children : List Node)

/-- Field `Type` of a node (`Type` itself is reserved in Lean). -/
def Node.Type' : Node → NodeType
  | .mk ty _ _ _ => ty

/-- Field `Data` of a node: the tag name of an element. -/
def Node.Data : Node → GoString
  | .mk _ data _ _ => data

/-- Field `Attr` of a node. -/
def Node.Attr : Node → List Attribute
  | .mk _ _ attr _ => attr

/-- Children of a node, first to last. -/
def Node.children : Node → List Node
  | .mk _ _ _ cs => cs

/-- The two inner `if` statements of the closure `f`, run on a `meta` element.
`Attr[i]` panics (`none`) when `i` is not below `len(Attr)`. -/
def ExtractCSRF.onMeta (attr : List Attribute) (c : CSRF) : Option CSRF := do
  let a0 ← attr[0]?
  let c ←
    if a0.Val = str "csrf_param" then do
      let a1 ← attr[1]?
      pure { c with Param := a1.Val }
    else pure c
  let a0 ← attr[0]?
  if a0.Val = str "csrf_token" then do
    let a1 ← attr[1]?
    pure { c with Token := a1.Val }
  else pure c

/-- The body of the closure `f` on one node, before it descends to the children. -/
def ExtractCSRF.visit (ty : NodeType) (data : GoString) (attr : List Attribute) (c : CSRF) :
    Option CSRF :=
  if ty = NodeType.ElementNode ∧ data = str "meta" then ExtractCSRF.onMeta attr c
  else some c

mutual
/-- The recursive closure `f` of `ExtractCSRF`, threading the `CSRF` it writes to. -/
def ExtractCSRF.f : Node → CSRF → Option CSRF
  | .mk ty data attr children, c =>
    match ExtractCSRF.visit ty data attr c with
    | none => none
    | some c1 => ExtractCSRF.loop children c1
/-- The loop `for c := n.FirstChild; c != nil; c = c.NextSibling` of the closure. -/
def ExtractCSRF.loop : List Node → CSRF → Option CSRF
  | [], c => some c
  | n :: rest, c =>
    match ExtractCSRF.f n c with
    | none => none
    | some c1 => ExtractCSRF.loop rest c1
end

/-- Go `quirks.ExtractCSRF`, given `html.Parse` as `parse`. -/
def ExtractCSRF (parse : Reader → Except GoError Node) (r : Reader) : Res CSRF :=
  match parse r with
  | .error err => .error err
  | .ok doc =>
    match ExtractCSRF.f doc ⟨[], []⟩ with
    | none => .panic
    | some c => .ok c

/-! ## `crypto/sha256`, `encoding/hex`, `encoding/base64` -/

/-- 32-bit addition. -/
def sha256.add32 (x y : Nat) : Nat := (x + y) % 2 ^ 32

/-- 32-bit rotate right. -/
def sha256.rotr (x n : Nat) : Nat := (x >>> n ||| x <<< (32 - n)) % 2 ^ 32

/-- Largest `r` below `2 ^ 36` with `r ^ k ≤ n`, found bit by bit from the top. -/
def sha256.iroot (k n : Nat) : Nat :=
  (List.range 36).foldl
    (fun r i => if (r + 2 ^ (35 - i)) ^ k ≤ n then r + 2 ^ (35 - i) else r) 0

/-- The first sixty-four prime numbers. -/
def sha256.primes : List Nat :=
  [2, 3, 5, 7, 11, 13, 17, 19, 23, 29, 31, 37, 41, 43, 47, 53,
   59, 61, 67, 71, 73, 79, 83, 89, 97, 101, 103, 107, 109, 113, 127, 131,
   137, 139, 149, 151, 157, 163, 167, 173, 179, 181, 191, 193, 197, 199, 211, 223,
   227, 229, 233, 239, 241, 251, 257, 263, 269, 271, 277, 281, 283, 293, 307, 311]

/-- First 32 bits of the fractional part of the square root of `p`. -/
def sha256.fracSqrt (p : Nat) : Nat := sha256.iroot 2 (p * 2 ^ 64) % 2 ^ 32

/-- First 32 bits of the fractional part of the cube root of `p`. -/
def sha256.fracCbrt (p : Nat) : Nat := sha256.iroot 3 (p * 2 ^ 96) % 2 ^ 32

/-- Round constants of SHA-256 (FIPS 180-4, section 4.2.2): the cube roots of
the first sixty-four primes. -/
def sha256.K : List Nat := sha256.primes.map sha256.fracCbrt

/-- The eight working variables, also the chaining value. -/
structure sha256.State where
  a : Nat
  b : Nat
  c : Nat
  d : Nat
  e : Nat
  f : Nat
  g : Nat
  h : Nat
deriving DecidableEq, Repr

/-- Initial hash value (FIPS 180-4, section 5.3.3): the square roots of the
first eight primes. -/
def sha256.init : sha256.State :=
  ⟨sha256.fracSqrt 2, sha256.fracSqrt 3, sha256.fracSqrt 5, sha256.fracSqrt 7,
   sha256.fracSqrt 11, sha256.fracSqrt 13, sha256.fracSqrt 17, sha256.fracSqrt 19⟩

/-- Message padding: `0x80`, zeros up to 56 mod 64, then the bit length on 8 bytes. -/
def sha256.pad (msg : List Nat) : List Nat :=
  let bits := msg.length * 8 % 2 ^ 64
  msg ++ [0x80] ++ List.replicate ((64 - (msg.length + 9) % 64) % 64) 0
    ++ (List.range 8).map (fun i => bits / 2 ^ (8 * (7 - i)) % 256)

/-- Big-endian 32-bit words of a block of bytes. -/
def sha256.words : List Nat → List Nat
  | b0 :: b1 :: b2 :: b3 :: rest =>
    (b0 * 2 ^ 24 + b1 * 2 ^ 16 + b2 * 2 ^ 8 + b3) :: sha256.words rest
  | _ => []

/-- Message schedule: the 16 words of a block extended to 64. -/
def sha256.schedule (block : List Nat) : List Nat :=
  (List.range 48).foldl
    (fun w _ =>
      let n := w.length
      let w15 := w.getD (n - 15) 0
      let w2 := w.getD (n - 2) 0
      let s0 := sha256.rotr w15 7 ^^^ sha256.rotr w15 18 ^^^ (w15 >>> 3)
      let s1 := sha256.rotr w2 17 ^^^ sha256.rotr w2 19 ^^^ (w2 >>> 10)
      w ++ [sha256.add32 (sha256.add32 (w.getD (n - 16) 0) s0) (sha256.add32 (w.getD (n - 7) 0) s1)])
    block

/-- One round of the compression function. -/
def sha256.round (s : sha256.State) (kw : Nat × Nat) : sha256.State :=
  let S1 := sha256.rotr s.e 6 ^^^ sha256.rotr s.e 11 ^^^ sha256.rotr s.e 25
  let ch := (s.e &&& s.f) ^^^ ((2 ^ 32 - 1 - s.e) &&& s.g)
  let t1 := sha256.add32 (sha256.add32 (sha256.add32 s.h S1) (sha256.add32 ch kw.1)) kw.2
  let S0 := sha256.rotr s.a 2 ^^^ sha256.rotr s.a 13 ^^^ sha256.rotr s.a 22
  let maj := (s.a &&& s.b) ^^^ (s.a &&& s.c) ^^^ (s.b &&& s.c)
  let t2 := sha256.add32 S0 maj
  ⟨sha256.add32 t1 t2, s.a, s.b, s.c, sha256.add32 s.d t1, s.e, s.f, s.g⟩

/-- Compression of one 64-byte block into the chaining value. -/
def sha256.compress (s : sha256.State) (block : List Nat) : sha256.State :=
  let r := (sha256.K.zip (sha256.schedule (sha256.words block))).foldl sha256.round s
  ⟨sha256.add32 s.a r.a, sha256.add32 s.b r.b, sha256.add32 s.c r.c, sha256.add32 s.d r.d,
   sha256.add32 s.e r.e, sha256.add32 s.f r.f, sha256.add32 s.g r.g, sha256.add32 s.h r.h⟩

/-- The four bytes of a 32-bit word, most significant first. -/
def sha256.be32 (w : Nat) : List Byte :=
  [Fin.ofNat (w / 2 ^ 24), Fin.ofNat (w / 2 ^ 16), Fin.ofNat (w / 2 ^ 8), Fin.ofNat w]

/-- Go `sha256.Sum256`: the SHA-256 checksum of the data, 32 bytes. -/
def sha256.Sum256 (data : List Byte) : List Byte :=
  let padded := sha256.pad (data.map (fun b => b.val))
  let s := (List.range (padded.length / 64)).foldl
    (fun s i => sha256.compress s ((padded.drop (64 * i)).take 64)) sha256.init
  [s.a, s.b, s.c, s.d, s.e, s.f, s.g, s.h].flatMap sha256.be32

/-- The table `hextable` of `encoding/hex`. -/
def hex.hextable : GoString := str "0123456789abcdef"

/-- Go `hex.EncodeToString`: two table characters per byte, high nibble first. -/
def hex.EncodeToString (src : List Byte) : GoString :=
  src.flatMap (fun v => [hex.hextable.getD (v.val >>> 4) 0, hex.hextable.getD (v.val &&& 0x0f) 0])

/-- The alphabet `encodeStd` of `encoding/base64`. -/
def base64.encodeStd : GoString :=
  str "ABCDEFGHIJKLMNOPQRSTUVWXYZabcdefghijklmnopqrstuvwxyz0123456789+/"

/-- Table lookup `enc.encode[i]`. -/
def base64.encode (i : Nat) : Byte := base64.encodeStd.getD i 0

/-- The padding character `=` of `base64.StdEncoding`. -/
def base64.StdPadding : Byte := 61

/-- Go `base64.StdEncoding.EncodeToString`: three bytes to four characters, the
last one or two bytes padded with `=`. -/
def base64.StdEncoding.EncodeToString : List Byte → GoString
  | b0 :: b1 :: b2 :: rest =>
    let val := b0.val <<< 16 ||| b1.val <<< 8 ||| b2.val
    base64.encode (val >>> 18 &&& 0x3F) :: base64.encode (val >>> 12 &&& 0x3F) ::
      base64.encode (val >>> 6 &&& 0x3F) :: base64.encode (val &&& 0x3F) ::
      base64.StdEncoding.EncodeToString rest
  | [b0, b1] =>
    let val := b0.val <<< 16 ||| b1.val <<< 8
    [base64.encode (val >>> 18 &&& 0x3F), base64.encode (val >>> 12 &&& 0x3F),
     base64.encode (val >>> 6 &&& 0x3F), base64.StdPadding]
  | [b0] =>
    let val := b0.val <<< 16
    [base64.encode (val >>> 18 &&& 0x3F), base64.encode (val >>> 12 &&& 0x3F),
     base64.StdPadding, base64.StdPadding]
  | [] => []

/-! ## `quirks/auth.go` -/

/-- A LoginRequest contains a username and a hashed password. -/
structure LoginRequest where
  Username : GoString
  Password : GoString
deriving DecidableEq, Repr

/-- Go `sha256hex`. -/
def sha256hex (data : GoString) : GoString :=
  hex.EncodeToString (sha256.Sum256 data)

/-- Go `base64encode`. -/
def base64encode (data : GoString) : GoString :=
  base64.StdEncoding.EncodeToString data

/-- Go `quirks.NewLoginRequest`. The argument `csrf` is a pointer: reading
`csrf.Param` through a nil pointer panics (`none`). -/
def NewLoginRequest (username password : GoString) (csrf : Option CSRF) : Option LoginRequest :=
  match csrf with
  | none => none
  | some csrf =>
    some {
      Username := username,
      Password := sha256hex (username ++ base64encode (sha256hex password) ++ csrf.Param ++ csrf.Token)
    }

/-! ## `strings.TrimSuffix`, `net.IP` -/

/-- Go `strings.TrimSuffix`: `s` without the trailing `suffix`, or `s` itself. -/
def strings.TrimSuffix (s suffix : GoString) : GoString :=
  if suffix.isSuffixOf s then s.take (s.length - suffix.length) else s

/-- Go `net.IP`: a byte slice of length 4 or 16; `nil` is the empty list. -/
abbrev IP := List Byte

/-- Go `net.HardwareAddr`. -/
abbrev HardwareAddr := List Byte

/-- Go `(net.IP).To4`. -/
def IP.To4 (ip : IP) : IP :=
  if ip.length = 4 then ip
  else if ip.length = 16 ∧ (ip.take 10).all (· = 0) ∧ ip.getD 10 0 = 0xff ∧ ip.getD 11 0 = 0xff then
    (ip.take 16).drop 12
  else []

/-- Go `(net.IP).To16`: a 4-byte address becomes its IPv4-in-IPv6 form. -/
def IP.To16 (ip : IP) : IP :=
  if ip.length = 4 then
    [0, 0, 0, 0, 0, 0, 0, 0, 0, 0, 0xff, 0xff, ip.getD 0 0, ip.getD 1 0, ip.getD 2 0, ip.getD 3 0]
  else if ip.length = 16 then ip
  else []

/-! ## `client.go` -/

/-- Go `url.URL`, the fields this client sets. -/
structure URL where
  Scheme : GoString
  Host : GoString
  Path : GoString
deriving DecidableEq, Repr

/-- The anonymous struct marshalled by `post`: `{"csrf": ..., "data": ...}`. -/
structure Envelope where
  CSRF : Option CSRF
  Data : LoginRequest
deriving DecidableEq, Repr

/-- The anonymous struct `resp` decoded by `Login`. The embedded `*quirks.CSRF`
is nil when the JSON object carries neither of its keys. -/
structure LoginResponse where
  CSRF : Option CSRF
  Error : GoString
  ErrorCode : Int
deriving DecidableEq, Repr

/-- The anonymous struct `info` decoded by `GetDeviceInfo`. -/
structure RawDeviceInfo where
  DeviceName : GoString
  ManufacturerOUI : GoString
  SerialNumber : GoString
  SoftwareVersion : GoString
  HardwareVersion : GoString
  UpTime : Int
deriving DecidableEq, Repr

/-- DeviceInfo represents device metadata. -/
structure DeviceInfo where
  DeviceID : GoString
  Model : GoString
  Version : GoString
  Uptime : Int
deriving DecidableEq, Repr

/-- One element of the anonymous slice `hostinfo` decoded by `GetHosts`. A Go
`map[string]string` is an association list; a missing key reads as `""`. -/
structure RawHost where
  HostName : GoString
  Active46 : Bool
  Layer2Interface : GoString
  MACAddress : GoString
  IPAddress : GoString
  Ipv6Addrs : List (List (GoString × GoString))
  LeaseTime : Int
deriving DecidableEq, Repr

/-- Host represents a connected device. -/
structure Host where
  Name : GoString
  IsConnected : Bool
  MACAddr : HardwareAddr
  IPAddrs : List IP
  InterfaceName : GoString
  LeaseTime : Int
deriving DecidableEq, Repr

/-- The zero value of `Host`, as `make([]Host, n)` fills the slice. -/
def Host.zero : Host := ⟨[], false, [], [], [], 0⟩

/-- Go map index expression `m[key]` on a `map[string]string`. -/
def mapIndex (m : List (GoString × GoString)) (key : GoString) : GoString :=
  match m.find? (fun kv => kv.1 = key) with
  | some kv => kv.2
  | none => []

/-- The standard-library and third-party calls made by `client.go`, one field
per call. The device and the network are behind `http_Get` and `http_Post`. -/
structure Env where
  /-- `url.Parse(path)` -/
  url_Parse : GoString → Except GoError URL
  /-- `base.String()` -/
  url_String : URL → GoString
  /-- `base.ResolveReference(u).String()` -/
  url_Resolve : URL → URL → GoString
  /-- `(*http.Client).Get(url)`: the response body, or the transport error -/
  http_Get : GoString → Except GoError Reader
  /-- `(*http.Client).Post(url, contentType, body)` -/
  http_Post : GoString → GoString → List Byte → Except GoError Reader
  /-- `html.Parse(r)` -/
  html_Parse : Reader → Except GoError Node
  /-- `json.Marshal` of the request envelope -/
  json_Marshal : Envelope → Except GoError (List Byte)
  /-- `json.Unmarshal(data, &resp)` in `Login` -/
  json_UnmarshalLogin : List Byte → Except GoError LoginResponse
  /-- `json.Unmarshal(data, &info)` in `GetDeviceInfo` -/
  json_UnmarshalDeviceInfo : List Byte → Except GoError RawDeviceInfo
  /-- `json.Unmarshal(data, &hostinfo)` in `GetHosts` -/
  json_UnmarshalHostInfo : List Byte → Except GoError (List RawHost)
  /-- `net.ParseMAC(s)` -/
  net_ParseMAC : GoString → Except GoError HardwareAddr
  /-- `net.ParseIP(s)`: the 16-byte form of the address, or nil -/
  net_ParseIP : GoString → IP

/-- A Client is a scoped http.Client for the HTTP API of HG659 devices. The
embedded `*http.Client` and its cookie jar belong to `net/http` and sit behind
`Env`; the fields written by this package are `base` and `csrf`. -/
structure Client where
  base : URL
  csrf : Option CSRF
deriving DecidableEq, Repr

/-- Go `NewClient`. -/
def NewClient (env : Env) (server : GoString) : Res Client :=
  let c : Client := ⟨⟨str "http", server, str "/"⟩, none⟩
  match env.http_Get (env.url_String c.base) with
  | .error err => .error err
  | .ok body =>
    match ExtractCSRF env.html_Parse body with
    | .error err => .error err
    | .panic => .panic
    | .ok csrf => .ok { c with csrf := some csrf }

/-- Go `(*Client).get`. -/
def Client.get (env : Env) (c : Client) (path : GoString) : Res (List Byte) :=
  match env.url_Parse path with
  | .error err => .error err
  | .ok u =>
    match env.http_Get (env.url_Resolve c.base u) with
    | .error err => .error err
    | .ok body => ReadAll body

/-- The value marshalled by `post`: the current pair and the payload. -/
def Client.envelope (c : Client) (data : LoginRequest) : Envelope :=
  ⟨c.csrf, data⟩

/-- Go `(*Client).post`. -/
def Client.post (env : Env) (c : Client) (path : GoString) (data : LoginRequest) :
    Res (List Byte) :=
  match env.url_Parse path with
  | .error err => .error err
  | .ok u =>
    match env.json_Marshal (c.envelope data) with
    | .error err => .error err
    | .ok payload =>
      match env.http_Post (env.url_Resolve c.base u) (str "application/json") payload with
      | .error err => .error err
      | .ok body => ReadAll body

/-- Go `(*Client).Login`: the client after the call, and what the call returned. -/
def Client.Login (env : Env) (c : Client) (username password : GoString) : Client × Res Unit :=
  match NewLoginRequest username password c.csrf with
  | none => (c, .panic)
  | some req =>
    match c.post env (str "/api/system/user_login") req with
    | .error err => (c, .error err)
    | .panic => (c, .panic)
    | .ok data =>
      match env.json_UnmarshalLogin data with
      | .error err => (c, .error err)
      | .ok resp =>
        let c1 : Client := if resp.CSRF ≠ none then { c with csrf := resp.CSRF } else c
        if resp.Error ≠ str "ok" then (c1, .error ⟨resp.Error⟩)
        else if resp.ErrorCode ≠ 0 then (c1, .error ⟨str "unknown error"⟩)
        else (c1, .ok ())

/-- Go `(*Client).Heartbeat`: the client after the call, and what the call returned. -/
def Client.Heartbeat (env : Env) (c : Client) : Client × Res Unit :=
  match c.get env (str "/api/system/heartbeat") with
  | .error err => (c, .error err)
  | .panic => (c, .panic)
  | .ok _ => (c, .ok ())

/-- Go `(*Client).GetDeviceInfo`: the client after the call, and what the call returned. -/
def Client.GetDeviceInfo (env : Env) (c : Client) : Client × Res DeviceInfo :=
  match c.get env (str "/api/system/deviceinfo") with
  | .error err => (c, .error err)
  | .panic => (c, .panic)
  | .ok data =>
    match env.json_UnmarshalDeviceInfo data with
    | .error err => (c, .error err)
    | .ok info =>
      (c, .ok {
        DeviceID := info.ManufacturerOUI ++ str "-" ++ info.SerialNumber,
        Model := info.DeviceName ++ str " " ++ info.HardwareVersion,
        Version := info.SoftwareVersion,
        Uptime := info.UpTime })

/-- The name computed at the top of the loop body of `GetHosts`. -/
def GetHosts.hostname (h : RawHost) : GoString :=
  let hostname := strings.TrimSuffix h.HostName (str "_Wireless")
  if hostname.length = h.HostName.length then strings.TrimSuffix h.HostName (str "_Ethernet")
  else hostname

/-- The slice `addrs` built in the loop body of `GetHosts`. -/
def GetHosts.addrs (env : Env) (h : RawHost) : List IP :=
  let addrs : List IP := []
  let addrs := if h.IPAddress ≠ [] then addrs ++ [IP.To4 (env.net_ParseIP h.IPAddress)] else addrs
  h.Ipv6Addrs.foldl (fun addrs addr => addrs ++ [IP.To16 (env.net_ParseIP (mapIndex addr (str "Ipv6Addr")))])
    addrs

/-- The loop `for i, h := range hostinfo` of `GetHosts`: the records still to
visit, the index `i`, and the slice `hosts` written so far. -/
def GetHosts.loop (env : Env) : List RawHost → Nat → List Host → Res (List Host)
  | [], _, hosts => .ok hosts
  | h :: rest, i, hosts =>
    let hostname := GetHosts.hostname h
    match env.net_ParseMAC h.MACAddress with
    | .error err => .error err
    | .ok mac =>
      let addrs := GetHosts.addrs env h
      GetHosts.loop env rest (i + 1)
        (hosts.set i {
          Name := hostname,
          IsConnected := h.Active46,
          InterfaceName := h.Layer2Interface,
          MACAddr := mac,
          IPAddrs := addrs,
          LeaseTime := h.LeaseTime })

/-- Go `(*Client).GetHosts`: the client after the call, and what the call returned. -/
def Client.GetHosts (env : Env) (c : Client) : Client × Res (List Host) :=
  match c.get env (str "/api/system/HostInfo") with
  | .error err => (c, .error err)
  | .panic => (c, .panic)
  | .ok data =>
    match env.json_UnmarshalHostInfo data with
    | .error err => (c, .error err)
    | .ok hostinfo =>
      (c, GetHosts.loop env hostinfo 0 (List.replicate hostinfo.length Host.zero))

/-! ## Vocabulary of the specification -/

mutual
/-- The attribute lists of the `meta` elements of a tree, in document order
(a node before its children, children first to last). -/
def Node.metas : Node → List (List Attribute)
  | .mk ty data attr children =>
    (if ty = NodeType.ElementNode ∧ data = str "meta" then [attr] else []) ++ Node.metasOfList children
/-- The attribute lists of the `meta` elements of a forest, in document order. -/
def Node.metasOfList : List Node → List (List Attribute)
  | [] => []
  | n :: rest => Node.metas n ++ Node.metasOfList rest
end

/-- First attribute value of an element is `name`. -/
def firstValIs (name : GoString) (attr : List Attribute) : Prop :=
  ∃ a0, attr[0]? = some a0 ∧ a0.Val = name

instance (name : GoString) (attr : List Attribute) : Decidable (firstValIs name attr) := by
  unfold firstValIs
  cases attr with
  | nil => exact isFalse (by simp)
  | cons a t =>
    exact decidable_of_iff (a.Val = name) (by simp)

/-- The positions read by `ExtractCSRF` exist: the element has a first attribute,
and a second one when the first has value `csrf_param` or `csrf_token`. -/
def attrsInBounds (attr : List Attribute) : Prop :=
  1 ≤ attr.length ∧
    ((firstValIs (str "csrf_param") attr ∨ firstValIs (str "csrf_token") attr) → 2 ≤ attr.length)

instance (attr : List Attribute) : Decidable (attrsInBounds attr) := by
  unfold attrsInBounds
  infer_instance

/-- Lowercase hexadecimal digit of a value below 16: `0`-`9`, then `a`-`f`. -/
def lowerHexDigit (d : Nat) : Byte :=
  if d < 10 then Fin.ofNat (48 + d) else Fin.ofNat (97 + (d - 10))

/-- Lowercase hexadecimal text of a byte string: two digits per byte, the more
significant digit first. -/
def lowerHex (bs : List Byte) : GoString :=
  bs.flatMap (fun b => [lowerHexDigit (b.val / 16), lowerHexDigit (b.val % 16)])

/-- The standard base64 alphabet (RFC 4648, table 1): `A`-`Z`, `a`-`z`, `0`-`9`, `+`, `/`. -/
def stdAlphabet (i : Nat) : Byte :=
  if i < 26 then Fin.ofNat (65 + i)
  else if i < 52 then Fin.ofNat (97 + (i - 26))
  else if i < 62 then Fin.ofNat (48 + (i - 52))
  else if i = 62 then 43
  else 47

/-- Base64 with the standard alphabet and `=` padding (RFC 4648, section 4):
each group of three bytes is a 24-bit number written as four 6-bit digits; a
final group of two bytes is 16 bits and two zero bits, written as three digits
and one `=`; a final single byte is 8 bits and four zero bits, written as two
digits and `==`. -/
def stdBase64 : List Byte → GoString
  | b0 :: b1 :: b2 :: rest =>
    let n := b0.val * 65536 + b1.val * 256 + b2.val
    stdAlphabet (n / 262144) :: stdAlphabet (n / 4096 % 64) :: stdAlphabet (n / 64 % 64) ::
      stdAlphabet (n % 64) :: stdBase64 rest
  | [b0, b1] =>
    let n := (b0.val * 256 + b1.val) * 4
    [stdAlphabet (n / 4096), stdAlphabet (n / 64 % 64), stdAlphabet (n % 64), 61]
  | [b0] =>
    let n := b0.val * 16
    [stdAlphabet (n / 64), stdAlphabet (n % 64), 61, 61]
  | [] => []

/-- The password hash as the specification words it: hash, hex, base64,
concatenate, hash, hex. -/
def specPasswordHash (username password : GoString) (csrf : CSRF) : GoString :=
  let h1 := lowerHex (sha256.Sum256 password)
  let b64 := stdBase64 h1
  let joined := username ++ b64 ++ csrf.Param ++ csrf.Token
  lowerHex (sha256.Sum256 joined)

/-- One pass of the loop body of `GetHosts` on the record `h`: the error it
returns, or the `Host` it stores in `hosts[i]`. -/
def GetHosts.body (env : Env) (h : RawHost) : Except GoError Host :=
  match env.net_ParseMAC h.MACAddress with
  | .error err => .error err
  | .ok mac =>
    .ok {
      Name := GetHosts.hostname h,
      IsConnected := h.Active46,
      InterfaceName := h.Layer2Interface,
      MACAddr := mac,
      IPAddrs := GetHosts.addrs env h,
      LeaseTime := h.LeaseTime }

/-- Session states reached by a successful `NewClient` followed by any number of
`Login` calls, along runs in which every pair the device supplied satisfies `P`:
the pair `ExtractCSRF` reads from the body of the landing page, and the pair of
each decoded login response that carries one. With `P` always true these are
all the reachable states. -/
inductive Reachable (P : CSRF → Prop) : Client → Prop where
  | boot (env : Env) (server : GoString) (c : Client) :
    NewClient env server = .ok c →
    (∀ body A, env.http_Get (env.url_String ⟨str "http", server, str "/"⟩) = .ok body →
      ExtractCSRF env.html_Parse body = .ok A → P A) →
    Reachable P c
  | login (env : Env) (c : Client) (username password : GoString) :
    Reachable P c →
    (∀ req data resp B, NewLoginRequest username password c.csrf = some req →
      c.post env (str "/api/system/user_login") req = .ok data →
      env.json_UnmarshalLogin data = .ok resp → resp.CSRF = some B → P B) →
    Reachable P (c.Login env username password).1

/-- Both fields of a pair are non-empty. -/
def CSRF.nonEmpty (A : CSRF) : Prop := A.Param ≠ [] ∧ A.Token ≠ []

instance (A : CSRF) : Decidable A.nonEmpty := by
  unfold CSRF.nonEmpty
  infer_instance

/-! ## Example inputs -/

/-- Value of a decimal field of a dotted-decimal address: one to three digits,
no leading zero, at most 255. -/
def demo.decimalField (f : List Byte) : Option Byte :=
  if f = [] ∨ 3 < f.length ∨ ¬ f.all (fun d => 48 ≤ d.val ∧ d.val ≤ 57) ∨
      (1 < f.length ∧ f.head? = some 48) then none
  else
    let n := f.foldl (fun n d => 10 * n + (d.val - 48)) 0
    if n ≤ 255 then some (Fin.ofNat n) else none

/-- Stand-in for `net.ParseIP` in the examples: a dotted-decimal IPv4 literal
gives its 16-byte form, any other text gives nil. IPv6 text is not covered. -/
def demo.parseIPv4 (s : GoString) : IP :=
  match (s.splitOn 46).map demo.decimalField with
  | [some a, some b, some c, some d] => [0, 0, 0, 0, 0, 0, 0, 0, 0, 0, 0xff, 0xff, a, b, c, d]
  | _ => []

/-- Value of a hexadecimal digit. -/
def demo.hexDigit (d : Byte) : Option Nat :=
  if 48 ≤ d.val ∧ d.val ≤ 57 then some (d.val - 48)
  else if 97 ≤ d.val ∧ d.val ≤ 102 then some (d.val - 87)
  else if 65 ≤ d.val ∧ d.val ≤ 70 then some (d.val - 55)
  else none

/-- Value of a two-digit hexadecimal field. -/
def demo.hexField (f : List Byte) : Option Byte :=
  match f with
  | [hi, lo] =>
    match demo.hexDigit hi, demo.hexDigit lo with
    | some h, some l => some (Fin.ofNat (16 * h + l))
    | _, _ => none
  | _ => none

/-- Stand-in for `net.ParseMAC` in the examples: six colon-separated two-digit
hexadecimal fields give the six bytes, any other text gives the error of
`net.ParseMAC`. The longer and the dotted forms are not covered. -/
def demo.parseMAC (s : GoString) : Except GoError HardwareAddr :=
  match (s.splitOn 58).map demo.hexField with
  | [some a, some b, some c, some d, some e, some f] => .ok [a, b, c, d, e, f]
  | _ => .error ⟨str "address " ++ s ++ str ": invalid MAC address"⟩

/-- A device that answers every request with `body`; the page parses to `page`
and the body decodes to `login`, `info` and `hosts`. -/
def demo.env (body : List Byte) (page : Node) (login : LoginResponse) (info : RawDeviceInfo)
    (hosts : List RawHost) : Env where
  url_Parse path := .ok ⟨[], [], path⟩
  url_String u := u.Scheme ++ str "://" ++ u.Host ++ u.Path
  url_Resolve base u := base.Scheme ++ str "://" ++ base.Host ++ u.Path
  http_Get _ := .ok (.ok body)
  http_Post _ _ _ := .ok (.ok body)
  html_Parse _ := .ok page
  json_Marshal _ := .ok []
  json_UnmarshalLogin _ := .ok login
  json_UnmarshalDeviceInfo _ := .ok info
  json_UnmarshalHostInfo _ := .ok hosts
  net_ParseMAC := demo.parseMAC
  net_ParseIP := demo.parseIPv4

/-- An empty document. -/
def demo.emptyPage : Node := .mk .DocumentNode [] [] []

/-- An empty device-info record. -/
def demo.noInfo : RawDeviceInfo := ⟨[], [], [], [], [], 0⟩

/-- A session on `192.168.1.1` whose current pair is `A`. -/
def demo.client (A : CSRF) : Client := ⟨⟨str "http", str "192.168.1.1", str "/"⟩, some A⟩

/-- The landing page `<html><head>` with the two CSRF `meta` elements. -/
def demo.landingPage : Node :=
  .mk .DocumentNode [] [] [.mk .ElementNode (str "html") [] [
    .mk .ElementNode (str "head") [] [
      .mk .ElementNode (str "meta") [⟨[], str "name", str "csrf_param"⟩, ⟨[], str "content", str "p1"⟩] [],
      .mk .ElementNode (str "meta") [⟨[], str "name", str "csrf_token"⟩, ⟨[], str "content", str "t1"⟩] []],
    .mk .ElementNode (str "body") [] []]]

/-- A page with `csrf_param` given twice, then `csrf_token` given twice. -/
def demo.repeatedPage : Node :=
  .mk .DocumentNode [] [] [.mk .ElementNode (str "html") [] [
    .mk .ElementNode (str "head") [] [
      .mk .ElementNode (str "meta") [⟨[], str "name", str "csrf_param"⟩, ⟨[], str "content", str "first"⟩] [],
      .mk .ElementNode (str "meta") [⟨[], str "name", str "csrf_token"⟩, ⟨[], str "content", str "one"⟩] [],
      .mk .ElementNode (str "meta") [⟨[], str "charset", str "utf-8"⟩] []],
    .mk .ElementNode (str "body") [] [
      .mk .ElementNode (str "meta") [⟨[], str "name", str "csrf_param"⟩, ⟨[], str "content", str "second"⟩] [],
      .mk .ElementNode (str "meta") [⟨[], str "name", str "csrf_token"⟩, ⟨[], str "content", str "two"⟩] []]]]

/-- A host record with a valid hardware address and the given address texts. -/
def demo.rawHost (ip : GoString) (ip6 : List (List (GoString × GoString))) : RawHost :=
  ⟨str "PC_Wireless", true, str "SSID1", str "00:11:22:aa:bb:cc", ip, ip6, 3600⟩

/-- A page whose only `meta` element has no attribute: `<meta>`. -/
def demo.bareMetaPage : Node :=
  .mk .DocumentNode [] [] [.mk .ElementNode (str "html") [] [
    .mk .ElementNode (str "head") [] [.mk .ElementNode (str "meta") [] []],
    .mk .ElementNode (str "body") [] []]]

/-- A page whose only `meta` element has one attribute: `<meta charset="utf-8">`. -/
def demo.charsetPage : Node :=
  .mk .DocumentNode [] [] [.mk .ElementNode (str "html") [] [
    .mk .ElementNode (str "head") [] [
      .mk .ElementNode (str "meta") [⟨[], str "charset", str "utf-8"⟩] []],
    .mk .ElementNode (str "body") [] []]]

/-- The device-info record of the specification's example. -/
def demo.info : RawDeviceInfo :=
  ⟨str "HG659", str "001122", str "XYZ", str "V100R001", str "v2", 86400⟩

/-- A host record with the given name and hardware address text. -/
def demo.namedHost (name mac : GoString) : RawHost :=
  ⟨name, false, str "LAN2", mac, str "192.168.1.20",
    [[(str "Ipv6Addr", str "fe80::1")], [(str "Scope", str "link")]], 60⟩

/-- Two bytes of a group of one to four hexadecimal digits. -/
def demo.hexGroup (f : List Byte) : Option (List Byte) :=
  if f = [] ∨ 4 < f.length ∨ ¬ f.all (fun d => (demo.hexDigit d).isSome) then none
  else
    let n := f.foldl (fun n d => 16 * n + (demo.hexDigit d).getD 0) 0
    some [Fin.ofNat (n / 256), Fin.ofNat (n % 256)]

/-- Bytes of colon-separated hexadecimal groups; the empty text has no group. -/
def demo.groups (s : GoString) : Option (List Byte) :=
  if s = [] then some []
  else
    (s.splitOn 58).foldr
      (fun f acc =>
        match demo.hexGroup f, acc with
        | some g, some a => some (g ++ a)
        | _, _ => none)
      (some [])

/-- IPv6 text made of hexadecimal groups with at most one `::`, which stands for
one or more zero groups. Zones and a dotted-decimal tail are not covered. -/
def demo.parseIPv6 (s : GoString) : IP :=
  match search (str "::") s with
  | none =>
    match demo.groups s with
    | some bs => if bs.length = 16 then bs else []
    | none => []
  | some k =>
    match demo.groups (s.take k), demo.groups (s.drop (k + 2)) with
    | some l, some r =>
      if l.length + r.length ≤ 14 then l ++ List.replicate (16 - l.length - r.length) 0 ++ r
      else []
    | _, _ => []

/-- Stand-in for `net.ParseIP` in the examples: dotted-decimal IPv4, else IPv6
in hexadecimal groups, else nil. -/
def demo.parseIP (s : GoString) : IP :=
  if demo.parseIPv4 s ≠ [] then demo.parseIPv4 s else demo.parseIPv6 s

/-- A device that answers the host query with `hosts`. -/
def demo.hostEnv (hosts : List RawHost) : Env :=
  { demo.env (str "/*[]*/") demo.emptyPage ⟨none, str "ok", 0⟩ demo.noInfo hosts with
    net_ParseIP := demo.parseIP }

/-- Three host records with valid hardware addresses. -/
def demo.threeHosts : List RawHost :=
  [demo.namedHost (str "PC_Wireless") (str "00:11:22:aa:bb:cc"),
   demo.namedHost (str "TV_Wireless_Ethernet") (str "00:11:22:aa:bb:cd"),
   demo.namedHost (str "NAS") (str "00:11:22:aa:bb:ce")]

/-- The hosts `GetHosts` returns for `demo.threeHosts`. -/
def demo.threeHostsOut : List Host :=
  [⟨str "PC", false, [0x00, 0x11, 0x22, 0xaa, 0xbb, 0xcc],
     [[192, 168, 1, 20], [0xfe, 0x80, 0, 0, 0, 0, 0, 0, 0, 0, 0, 0, 0, 0, 0, 1], []],
     str "LAN2", 60⟩,
   ⟨str "TV_Wireless", false, [0x00, 0x11, 0x22, 0xaa, 0xbb, 0xcd],
     [[192, 168, 1, 20], [0xfe, 0x80, 0, 0, 0, 0, 0, 0, 0, 0, 0, 0, 0, 0, 0, 1], []],
     str "LAN2", 60⟩,
   ⟨str "NAS", false, [0x00, 0x11, 0x22, 0xaa, 0xbb, 0xce],
     [[192, 168, 1, 20], [0xfe, 0x80, 0, 0, 0, 0, 0, 0, 0, 0, 0, 0, 0, 0, 0, 1], []],
     str "LAN2", 60⟩]

/-! ## Facts about `bytes.Index` -/

theorem str_open : str "/*" = [47, 42] := by decide

theorem str_close : str "*/" = [42, 47] := by decide

/-- `search` finds nothing exactly when `sep` is not a contiguous part of `s`. -/
theorem search_eq_none_iff (sep s : List Byte) : search sep s = none ↔ ¬ sep <:+: s := by
  induction s with
  | nil =>
    simp only [search, List.isPrefixOf_iff_prefix, List.prefix_nil, List.infix_nil]
    split <;> simp_all
  | cons b t ih =>
    simp only [search, List.isPrefixOf_iff_prefix, List.infix_cons_iff]
    split
    · simp_all
    · simp_all

/-- `search` returns `k` exactly when `sep` starts at `k` and at no earlier position. -/
theorem search_eq_some_iff (sep s : List Byte) (k : Nat) :
    search sep s = some k ↔ sep <+: s.drop k ∧ ∀ j, j < k → ¬ sep <+: s.drop j := by
  induction s generalizing k with
  | nil =>
    simp only [search, List.isPrefixOf_iff_prefix, List.drop_nil]
    split
    · rename_i h
      constructor
      · intro hk
        cases hk
        exact ⟨h, by simp⟩
      · rintro ⟨-, h2⟩
        rcases Nat.eq_zero_or_pos k with rfl | hk
        · rfl
        · exact absurd h (h2 0 hk)
    · rename_i h
      simp [h]
  | cons b t ih =>
    simp only [search, List.isPrefixOf_iff_prefix]
    split
    · rename_i h
      constructor
      · intro hk
        cases hk
        exact ⟨h, by simp⟩
      · rintro ⟨-, h2⟩
        rcases Nat.eq_zero_or_pos k with rfl | hk
        · rfl
        · exact absurd h (h2 0 hk)
    · rename_i h
      cases k with
      | zero => simp [h]
      | succ k =>
        simp only [Option.map_eq_some', Nat.add_right_cancel_iff, exists_eq_right, ih k,
          List.drop_succ_cons]
        constructor
        · rintro ⟨h1, h2⟩
          refine ⟨h1, ?_⟩
          intro j hj
          cases j with
          | zero => simpa using h
          | succ j => simpa using h2 j (by omega)
        · rintro ⟨h1, h2⟩
          refine ⟨h1, ?_⟩
          intro j hj
          simpa using h2 (j + 1) (by omega)


/-- An index found by `search` leaves room for `sep` inside `s`. -/
theorem search_bound (sep s : List Byte) (k : Nat) (h : search sep s = some k) :
    k + sep.length ≤ s.length := by
  obtain ⟨h1, h2⟩ := (search_eq_some_iff sep s k).1 h
  have hlen := h1.length_le
  simp only [List.length_drop] at hlen
  rcases Nat.lt_or_ge k s.length with hk | hk
  · omega
  · have hsep : sep = [] := by
      have : s.drop k = [] := List.drop_eq_nil_of_le hk
      rw [this] at h1
      exact List.prefix_nil.1 h1
    subst hsep
    rcases Nat.eq_zero_or_pos k with rfl | hpos
    · simp
    · exact absurd (List.nil_prefix) (h2 0 hpos)

theorem Index_eq_neg_one_iff (s sep : List Byte) : bytes.Index s sep = -1 ↔ ¬ sep <:+: s := by
  rw [← search_eq_none_iff]
  unfold bytes.Index
  cases search sep s with
  | none => simp
  | some k => simp

theorem Index_eq_of_first (s sep : List Byte) (k : Nat) (h1 : sep <+: s.drop k)
    (h2 : ∀ j, j < k → ¬ sep <+: s.drop j) : bytes.Index s sep = (k : Int) := by
  unfold bytes.Index
  rw [(search_eq_some_iff sep s k).2 ⟨h1, h2⟩]

/-- C4. For every byte buffer in which the marker `/*` does not occur, or the
marker `*/` does not occur, `ReadAll` returns the input bytes unchanged and no
error. -/
theorem ReadAll_marker_absent (data : List Byte)
    (h : ¬ str "/*" <:+: data ∨ ¬ str "*/" <:+: data) :
    ReadAll (.ok data) = .ok data := by
  have h' : bytes.Index data (str "/*") = -1 ∨ bytes.Index data (str "*/") = -1 := by
    rcases h with h | h
    · exact Or.inl ((Index_eq_neg_one_iff _ _).2 h)
    · exact Or.inr ((Index_eq_neg_one_iff _ _).2 h)
  simp only [ReadAll, h', if_true]

/-- C2, amended. For every byte buffer `P ++ "/*" ++ X ++ "*/" ++ S` in which no
`/*` starts before the end of `P` and no `*/` starts before the end of `X`,
`ReadAll` returns exactly `X`. -/
theorem ReadAll_unwrap_first (P X S : List Byte)
    (hopen : ∀ j, j < P.length → ¬ str "/*" <+: (P ++ str "/*" ++ X ++ str "*/" ++ S).drop j)
    (hclose : ∀ j, j < P.length + 2 + X.length →
      ¬ str "*/" <+: (P ++ str "/*" ++ X ++ str "*/" ++ S).drop j) :
    ReadAll (.ok (P ++ str "/*" ++ X ++ str "*/" ++ S)) = .ok X := by
  have hs : bytes.Index (P ++ str "/*" ++ X ++ str "*/" ++ S) (str "/*") = (P.length : Int) := by
    apply Index_eq_of_first _ _ _ _ hopen
    simp only [List.append_assoc, List.drop_left]
    exact List.prefix_append _ _
  have he : bytes.Index (P ++ str "/*" ++ X ++ str "*/" ++ S) (str "*/")
      = ((P.length + 2 + X.length : Nat) : Int) := by
    apply Index_eq_of_first _ _ _ _ hclose
    have : P ++ str "/*" ++ X ++ str "*/" ++ S = (P ++ str "/*" ++ X) ++ (str "*/" ++ S) := by
      simp
    rw [this, List.drop_left']
    · exact List.prefix_append _ _
    · simp [str_open]; omega
  simp only [ReadAll, hs, he]
  have hne1 : ¬ ((P.length : Int) = -1 ∨ ((P.length + 2 + X.length : Nat) : Int) = -1) := by omega
  rw [if_neg hne1]
  have hsl : slice (P ++ str "/*" ++ X ++ str "*/" ++ S) ((P.length : Int) + 2)
      ((P.length + 2 + X.length : Nat) : Int) = some X := by
    unfold slice
    rw [if_pos]
    · have e1 : (((P.length + 2 + X.length : Nat) : Int)).toNat = (P ++ str "/*" ++ X).length := by
        simp [str_open]; omega
      have e2 : ((P.length : Int) + 2).toNat = (P ++ str "/*").length := by
        simp [str_open]; omega
      have : P ++ str "/*" ++ X ++ str "*/" ++ S = (P ++ str "/*" ++ X) ++ (str "*/" ++ S) := by
        simp
      rw [e1, e2, this, List.take_left, List.drop_left]
    · simp [str_open, str_close]
      omega
  rw [hsl]

/-- Witness of C4: a buffer with an opening marker only. -/
theorem ReadAll_marker_absent_witness :
    (¬ str "/*" <:+: str "ab/*hello" ∨ ¬ str "*/" <:+: str "ab/*hello") ∧
    ReadAll (.ok (str "ab/*hello")) = .ok (str "ab/*hello") :=
  ⟨by decide, ReadAll_marker_absent (str "ab/*hello") (by decide)⟩

/-- Witness of C2, amended: `ab/*hello*/cd` unwraps to `hello`. -/
theorem ReadAll_unwrap_first_witness :
    ReadAll (.ok (str "ab" ++ str "/*" ++ str "hello" ++ str "*/" ++ str "cd"))
      = .ok (str "hello") :=
  ReadAll_unwrap_first (str "ab") (str "hello") (str "cd") (by decide) (by decide)

/-- C2 as stated fails: with `P` empty, `X = "a*/b"` and `S` empty the buffer is
`/*a*/b*/`, and `ReadAll` returns `a`, not `X`. -/
theorem ReadAll_stops_at_first_close :
    ReadAll (.ok (str "" ++ str "/*" ++ str "a*/b" ++ str "*/" ++ str "")) = .ok (str "a") ∧
    (Res.ok (str "a") : Res (List Byte)) ≠ .ok (str "a*/b") := by
  decide

/-- C3 fails on the code: on `/*/` the bounds are `[2:1]` and on `*/ /*` they
are `[5:0]`; the slice expression panics and nothing is returned. -/
theorem ReadAll_panics_when_close_precedes :
    ReadAll (.ok (str "/*/")) = .panic ∧ ReadAll (.ok (str "*/ /*")) = .panic := by
  decide

/-! ## Facts about `ExtractCSRF` -/

mutual
/-- The closure `f` does to the pair what `onMeta` does along the `meta`
elements of the tree in document order. -/
theorem f_eq_foldlM : ∀ (n : Node) (c : CSRF),
    ExtractCSRF.f n c = (Node.metas n).foldlM (fun c attr => ExtractCSRF.onMeta attr c) c
  | .mk ty data attr children, c => by
    rw [ExtractCSRF.f, Node.metas, List.foldlM_append, ExtractCSRF.visit]
    by_cases hm : ty = NodeType.ElementNode ∧ data = str "meta"
    · rw [if_pos hm, if_pos hm]
      cases h : ExtractCSRF.onMeta attr c with
      | none => simp [h]
      | some c1 => simp [h, loop_eq_foldlM children c1]
    · rw [if_neg hm, if_neg hm]
      simp [loop_eq_foldlM children c]
/-- The child loop does the same along a forest. -/
theorem loop_eq_foldlM : ∀ (ns : List Node) (c : CSRF),
    ExtractCSRF.loop ns c = (Node.metasOfList ns).foldlM (fun c attr => ExtractCSRF.onMeta attr c) c
  | [], c => by simp [ExtractCSRF.loop, Node.metasOfList]
  | n :: rest, c => by
    rw [ExtractCSRF.loop, Node.metasOfList, List.foldlM_append, f_eq_foldlM n c]
    cases h : (Node.metas n).foldlM (fun c attr => ExtractCSRF.onMeta attr c) c with
    | none => simp
    | some c1 => simp [loop_eq_foldlM rest c1]
end

theorem csrf_param_ne_token : str "csrf_param" ≠ str "csrf_token" := by decide

theorem onMeta_param (a0 a1 : Attribute) (more : List Attribute) (c : CSRF)
    (h : a0.Val = str "csrf_param") :
    ExtractCSRF.onMeta (a0 :: a1 :: more) c = some ⟨a1.Val, c.Token⟩ := by
  simp [ExtractCSRF.onMeta, h, csrf_param_ne_token]

theorem onMeta_token (a0 a1 : Attribute) (more : List Attribute) (c : CSRF)
    (h : a0.Val = str "csrf_token") :
    ExtractCSRF.onMeta (a0 :: a1 :: more) c = some ⟨c.Param, a1.Val⟩ := by
  simp [ExtractCSRF.onMeta, h, csrf_param_ne_token.symm]

theorem onMeta_other (a0 : Attribute) (more : List Attribute) (c : CSRF)
    (hp : a0.Val ≠ str "csrf_param") (ht : a0.Val ≠ str "csrf_token") :
    ExtractCSRF.onMeta (a0 :: more) c = some c := by
  simp [ExtractCSRF.onMeta, hp, ht]

/-- Within bounds `onMeta` returns, and it writes a field only on a match. -/
theorem onMeta_inBounds (attr : List Attribute) (c : CSRF) (hb : attrsInBounds attr) :
    ∃ c1, ExtractCSRF.onMeta attr c = some c1 ∧
      (¬ firstValIs (str "csrf_param") attr → c1.Param = c.Param) ∧
      (¬ firstValIs (str "csrf_token") attr → c1.Token = c.Token) := by
  obtain ⟨h1, h2⟩ := hb
  cases attr with
  | nil => simp at h1
  | cons a0 t =>
    by_cases hp : a0.Val = str "csrf_param"
    · have hlen := h2 (Or.inl ⟨a0, by simp, hp⟩)
      cases t with
      | nil => simp at hlen
      | cons a1 more =>
        refine ⟨_, onMeta_param a0 a1 more c hp, ?_, ?_⟩
        · intro hn
          exact absurd ⟨a0, by simp, hp⟩ hn
        · intro _
          rfl
    · by_cases ht : a0.Val = str "csrf_token"
      · have hlen := h2 (Or.inr ⟨a0, by simp, ht⟩)
        cases t with
        | nil => simp at hlen
        | cons a1 more =>
          refine ⟨_, onMeta_token a0 a1 more c ht, ?_, ?_⟩
          · intro _
            rfl
          · intro hn
            exact absurd ⟨a0, by simp, ht⟩ hn
      · exact ⟨c, onMeta_other a0 t c hp ht, fun _ => rfl, fun _ => rfl⟩

/-- Along elements that are all within bounds the scan returns; a field is
left as it was when no element matches it. -/
theorem foldlM_onMeta_inBounds (ms : List (List Attribute)) (c : CSRF)
    (hb : ∀ m ∈ ms, attrsInBounds m) :
    ∃ c1, ms.foldlM (fun c attr => ExtractCSRF.onMeta attr c) c = some c1 ∧
      ((∀ m ∈ ms, ¬ firstValIs (str "csrf_param") m) → c1.Param = c.Param) ∧
      ((∀ m ∈ ms, ¬ firstValIs (str "csrf_token") m) → c1.Token = c.Token) := by
  induction ms generalizing c with
  | nil => exact ⟨c, by simp, fun _ => rfl, fun _ => rfl⟩
  | cons m rest ih =>
    obtain ⟨c1, h1, hp1, ht1⟩ := onMeta_inBounds m c (hb m (by simp))
    obtain ⟨c2, h2, hp2, ht2⟩ := ih c1 (fun x hx => hb x (by simp [hx]))
    refine ⟨c2, by simp [List.foldlM_cons, h1, h2], ?_, ?_⟩
    · intro hn
      rw [hp2 (fun x hx => hn x (by simp [hx])), hp1 (hn m (by simp))]
    · intro hn
      rw [ht2 (fun x hx => hn x (by simp [hx])), ht1 (hn m (by simp))]

/-- C6, amended. For every parsed document in which every `meta` element has a
first attribute, and a second one when the first has value `csrf_param` or
`csrf_token`, `ExtractCSRF` returns a pair; its `Param` (respectively `Token`)
is the second attribute value of the last `meta` element in document order
whose first attribute value is `csrf_param` (respectively `csrf_token`). -/
theorem ExtractCSRF_last_match_wins (parse : Reader → Except GoError Node) (r : Reader)
    (doc : Node) (hparse : parse r = .ok doc) (hb : ∀ m ∈ doc.metas, attrsInBounds m) :
    ∃ c, ExtractCSRF parse r = .ok c ∧
      (∀ pre a0 a1 more post, doc.metas = pre ++ (a0 :: a1 :: more) :: post →
        a0.Val = str "csrf_param" → (∀ m ∈ post, ¬ firstValIs (str "csrf_param") m) →
        c.Param = a1.Val) ∧
      (∀ pre a0 a1 more post, doc.metas = pre ++ (a0 :: a1 :: more) :: post →
        a0.Val = str "csrf_token" → (∀ m ∈ post, ¬ firstValIs (str "csrf_token") m) →
        c.Token = a1.Val) := by
  obtain ⟨c, hc, -, -⟩ := foldlM_onMeta_inBounds doc.metas ⟨[], []⟩ hb
  refine ⟨c, ?_, ?_, ?_⟩
  · simp [ExtractCSRF, hparse, f_eq_foldlM, hc]
  · intro pre a0 a1 more post hm ha hpost
    rw [hm] at hc hb
    obtain ⟨c0, h0, -, -⟩ := foldlM_onMeta_inBounds pre ⟨[], []⟩ (fun x hx => hb x (by simp [hx]))
    obtain ⟨c2, h2, hp2, -⟩ := foldlM_onMeta_inBounds post ⟨a1.Val, c0.Token⟩
      (fun x hx => hb x (by simp [hx]))
    simp only [List.foldlM_append, List.foldlM_cons, h0, onMeta_param a0 a1 more c0 ha,
      Option.some_bind, Option.bind_eq_bind, h2, Option.some.injEq] at hc
    rw [← hc, hp2 hpost]
  · intro pre a0 a1 more post hm ha hpost
    rw [hm] at hc hb
    obtain ⟨c0, h0, -, -⟩ := foldlM_onMeta_inBounds pre ⟨[], []⟩ (fun x hx => hb x (by simp [hx]))
    obtain ⟨c2, h2, -, ht2⟩ := foldlM_onMeta_inBounds post ⟨c0.Param, a1.Val⟩
      (fun x hx => hb x (by simp [hx]))
    simp only [List.foldlM_append, List.foldlM_cons, h0, onMeta_token a0 a1 more c0 ha,
      Option.some_bind, Option.bind_eq_bind, h2, Option.some.injEq] at hc
    rw [← hc, ht2 hpost]

/-- C5. For all strings `p` and `t`, for a parsed document whose `meta` elements
are `<meta name="csrf_param" content=p>` and `<meta name="csrf_token" content=t>`
(in either order, anywhere in the tree), `ExtractCSRF` returns `{p, t}` and no
error. -/
theorem ExtractCSRF_param_token (parse : Reader → Except GoError Node) (r : Reader) (doc : Node)
    (p t n1 n2 n3 n4 : GoString) (hparse : parse r = .ok doc)
    (hm : doc.metas = [[⟨n1, str "name", str "csrf_param"⟩, ⟨n2, str "content", p⟩],
                       [⟨n3, str "name", str "csrf_token"⟩, ⟨n4, str "content", t⟩]] ∨
          doc.metas = [[⟨n3, str "name", str "csrf_token"⟩, ⟨n4, str "content", t⟩],
                       [⟨n1, str "name", str "csrf_param"⟩, ⟨n2, str "content", p⟩]]) :
    ExtractCSRF parse r = .ok ⟨p, t⟩ := by
  rcases hm with hm | hm <;>
    simp [ExtractCSRF, hparse, f_eq_foldlM, hm, onMeta_param, onMeta_token]

/-- Witness of C5: the landing page with `p1` and `t1`. -/
theorem ExtractCSRF_param_token_witness :
    ExtractCSRF (fun _ => .ok demo.landingPage) (.ok []) = .ok ⟨str "p1", str "t1"⟩ :=
  ExtractCSRF_param_token (fun _ => .ok demo.landingPage) (.ok []) demo.landingPage
    (str "p1") (str "t1") [] [] [] [] rfl (Or.inl (by decide))

/-- Witness of C6, amended: the page that gives each field twice. -/
theorem ExtractCSRF_last_match_wins_witness :
    (∀ m ∈ demo.repeatedPage.metas, attrsInBounds m) ∧
    ∃ c, ExtractCSRF (fun _ => .ok demo.repeatedPage) (.ok []) = .ok c ∧
      (∀ pre a0 a1 more post, demo.repeatedPage.metas = pre ++ (a0 :: a1 :: more) :: post →
        a0.Val = str "csrf_param" → (∀ m ∈ post, ¬ firstValIs (str "csrf_param") m) →
        c.Param = a1.Val) ∧
      (∀ pre a0 a1 more post, demo.repeatedPage.metas = pre ++ (a0 :: a1 :: more) :: post →
        a0.Val = str "csrf_token" → (∀ m ∈ post, ¬ firstValIs (str "csrf_token") m) →
        c.Token = a1.Val) :=
  ⟨by decide,
   ExtractCSRF_last_match_wins (fun _ => .ok demo.repeatedPage) (.ok []) demo.repeatedPage rfl
     (by decide)⟩

/-- C6 as stated fails: the page lists `csrf_param` with `first` then `second`
and `csrf_token` with `one` then `two`, every `meta` but the `charset` one with
two attributes; `ExtractCSRF` returns `second` and `two`, not the earliest values. -/
theorem ExtractCSRF_first_match_overwritten :
    demo.repeatedPage.metas =
      [[⟨[], str "name", str "csrf_param"⟩, ⟨[], str "content", str "first"⟩],
       [⟨[], str "name", str "csrf_token"⟩, ⟨[], str "content", str "one"⟩],
       [⟨[], str "charset", str "utf-8"⟩],
       [⟨[], str "name", str "csrf_param"⟩, ⟨[], str "content", str "second"⟩],
       [⟨[], str "name", str "csrf_token"⟩, ⟨[], str "content", str "two"⟩]] ∧
    ExtractCSRF (fun _ => .ok demo.repeatedPage) (.ok []) = .ok ⟨str "second", str "two"⟩ ∧
    str "second" ≠ str "first" ∧ str "two" ≠ str "one" := by
  decide

/-! ## Facts about the encoders -/

set_option maxRecDepth 100000 in
theorem hex_digits (v : Byte) :
    hex.hextable.getD (v.val >>> 4) 0 = lowerHexDigit (v.val / 16) ∧
    hex.hextable.getD (v.val &&& 0x0f) 0 = lowerHexDigit (v.val % 16) := by
  revert v
  decide

theorem hex_EncodeToString_eq (src : List Byte) : hex.EncodeToString src = lowerHex src := by
  unfold hex.EncodeToString lowerHex
  congr 1
  funext v
  rw [(hex_digits v).1, (hex_digits v).2]

set_option maxRecDepth 100000 in
theorem base64_encode_eq (i : Nat) (h : i < 64) : base64.encode i = stdAlphabet i := by
  revert i
  decide

theorem and_0x3F (x : Nat) : x &&& 0x3F = x % 64 :=
  Nat.and_pow_two_sub_one_eq_mod x 6

theorem shl16_or_shl8 (b0 b1 : Nat) (h1 : b1 < 256) :
    b0 <<< 16 ||| b1 <<< 8 = b0 * 65536 + b1 * 256 := by
  have h := Nat.mul_add_lt_is_or (i := 16) (b := b1 * 256) (by omega) b0
  rw [Nat.shiftLeft_eq, Nat.shiftLeft_eq]
  norm_num at h ⊢
  rw [Nat.mul_comm b0 65536, ← h]

theorem shl16_or_shl8_or (b0 b1 b2 : Nat) (h1 : b1 < 256) (h2 : b2 < 256) :
    b0 <<< 16 ||| b1 <<< 8 ||| b2 = b0 * 65536 + b1 * 256 + b2 := by
  rw [shl16_or_shl8 b0 b1 h1]
  have h := Nat.mul_add_lt_is_or (i := 8) (b := b2) (by omega) (b0 * 256 + b1)
  norm_num at h
  have e : b0 * 65536 + b1 * 256 = 256 * (b0 * 256 + b1) := by omega
  rw [e, ← h]

theorem base64_encode_of_eq (i j : Nat) (h : i = j) (hj : j < 64) :
    base64.encode i = stdAlphabet j := by
  subst h
  exact base64_encode_eq i hj

/-- The table-and-shift encoder of `encoding/base64` computes RFC 4648 base64. -/
theorem base64_EncodeToString_eq : ∀ (src : List Byte),
    base64.StdEncoding.EncodeToString src = stdBase64 src
  | b0 :: b1 :: b2 :: rest => by
    have h0 := b0.isLt
    have h1 := b1.isLt
    have h2 := b2.isLt
    simp only [base64.StdEncoding.EncodeToString, stdBase64, base64_EncodeToString_eq rest,
      shl16_or_shl8_or b0.val b1.val b2.val h1 h2, and_0x3F, Nat.shiftRight_eq_div_pow]
    rw [base64_encode_of_eq _ ((b0.val * 65536 + b1.val * 256 + b2.val) / 262144) (by omega) (by omega),
      base64_encode_of_eq _ ((b0.val * 65536 + b1.val * 256 + b2.val) / 4096 % 64) (by omega) (by omega),
      base64_encode_of_eq _ ((b0.val * 65536 + b1.val * 256 + b2.val) / 64 % 64) (by omega) (by omega),
      base64_encode_of_eq _ ((b0.val * 65536 + b1.val * 256 + b2.val) % 64) (by omega) (by omega)]
  | [b0, b1] => by
    have h0 := b0.isLt
    have h1 := b1.isLt
    simp only [base64.StdEncoding.EncodeToString, stdBase64, shl16_or_shl8 b0.val b1.val h1,
      and_0x3F, Nat.shiftRight_eq_div_pow, base64.StdPadding]
    rw [base64_encode_of_eq _ ((b0.val * 256 + b1.val) * 4 / 4096) (by omega) (by omega),
      base64_encode_of_eq _ ((b0.val * 256 + b1.val) * 4 / 64 % 64) (by omega) (by omega),
      base64_encode_of_eq _ ((b0.val * 256 + b1.val) * 4 % 64) (by omega) (by omega)]
  | [b0] => by
    have h0 := b0.isLt
    simp only [base64.StdEncoding.EncodeToString, stdBase64, Nat.shiftLeft_eq,
      and_0x3F, Nat.shiftRight_eq_div_pow, base64.StdPadding]
    rw [base64_encode_of_eq _ (b0.val * 16 / 64) (by omega) (by omega),
      base64_encode_of_eq _ (b0.val * 16 % 64) (by omega) (by omega)]
  | [] => by simp [base64.StdEncoding.EncodeToString, stdBase64]

/-- With a pair at hand `NewLoginRequest` returns the hash the specification words. -/
theorem NewLoginRequest_some (username password : GoString) (csrf : CSRF) :
    NewLoginRequest username password (some csrf) =
      some ⟨username, specPasswordHash username password csrf⟩ := by
  simp only [NewLoginRequest, sha256hex, base64encode, specPasswordHash,
    hex_EncodeToString_eq, base64_EncodeToString_eq]

/-- C1. For every username, password and CSRF pair, `NewLoginRequest` returns a
request whose `Username` is the given username and whose `Password` is
`hex(SHA-256(username ++ base64std(hex(SHA-256(password))) ++ Param ++ Token))`,
with lowercase hexadecimal and the standard padded base64 alphabet. -/
theorem NewLoginRequest_hash (username password : GoString) (csrf : CSRF) :
    NewLoginRequest username password (some csrf) =
      some {
        Username := username,
        Password := lowerHex (sha256.Sum256
          (username ++ stdBase64 (lowerHex (sha256.Sum256 password)) ++ csrf.Param ++ csrf.Token)) } :=
  NewLoginRequest_some username password csrf

/-! ## Facts about the session client -/

/-- What `Login` does once the response is decoded. -/
theorem Login_decoded (env : Env) (c : Client) (username password : GoString)
    (req : LoginRequest) (data : List Byte) (resp : LoginResponse)
    (hreq : NewLoginRequest username password c.csrf = some req)
    (hpost : c.post env (str "/api/system/user_login") req = .ok data)
    (hdec : env.json_UnmarshalLogin data = .ok resp) :
    c.Login env username password =
      (if resp.CSRF ≠ none then { c with csrf := resp.CSRF } else c,
       if resp.Error ≠ str "ok" then .error ⟨resp.Error⟩
       else if resp.ErrorCode ≠ 0 then .error ⟨str "unknown error"⟩
       else .ok ()) := by
  simp only [Client.Login, hreq, hpost, hdec]
  split <;> [skip; split] <;> rfl

/-- Before a response is decoded `Login` leaves the client as it was. -/
theorem Login_not_decoded (env : Env) (c : Client) (username password : GoString)
    (h : ∀ req data resp, NewLoginRequest username password c.csrf = some req →
      c.post env (str "/api/system/user_login") req = .ok data →
      env.json_UnmarshalLogin data = .ok resp → resp.CSRF = none) :
    (c.Login env username password).1 = c := by
  cases hreq : NewLoginRequest username password c.csrf with
  | none => simp only [Client.Login, hreq]
  | some req =>
    cases hpost : c.post env (str "/api/system/user_login") req with
    | error err => simp only [Client.Login, hreq, hpost]
    | panic => simp only [Client.Login, hreq, hpost]
    | ok data =>
      cases hdec : env.json_UnmarshalLogin data with
      | error err => simp only [Client.Login, hreq, hpost, hdec]
      | ok resp =>
        rw [Login_decoded env c username password req data resp hreq hpost hdec]
        simp [h req data resp hreq hpost hdec]

/-- C7. For every decoded login response whose `errorCategory` is not `"ok"`,
`Login` returns an error whose message is exactly the `errorCategory` value,
whatever the `errcode`. -/
theorem Login_errorCategory_not_ok (env : Env) (c : Client) (username password : GoString)
    (req : LoginRequest) (data : List Byte) (resp : LoginResponse)
    (hreq : NewLoginRequest username password c.csrf = some req)
    (hpost : c.post env (str "/api/system/user_login") req = .ok data)
    (hdec : env.json_UnmarshalLogin data = .ok resp)
    (hcat : resp.Error ≠ str "ok") :
    (c.Login env username password).2 = .error ⟨resp.Error⟩ := by
  rw [Login_decoded env c username password req data resp hreq hpost hdec]
  simp [hcat]

/-- C8. For every session whose current pair is `A` and every decoded login
response with `errorCategory` `"ok"` and `errcode` 0, `Login` returns no error;
if the response carries a pair `B` the session's pair afterwards is `B`, so the
next envelope and the next login hash are built from `B`; if it carries none the
pair stays `A`. -/
theorem Login_rotates_csrf (env : Env) (c : Client) (A : CSRF) (username password : GoString)
    (req : LoginRequest) (data : List Byte) (resp : LoginResponse)
    (hA : c.csrf = some A)
    (hreq : NewLoginRequest username password c.csrf = some req)
    (hpost : c.post env (str "/api/system/user_login") req = .ok data)
    (hdec : env.json_UnmarshalLogin data = .ok resp)
    (hcat : resp.Error = str "ok") (hcode : resp.ErrorCode = 0) :
    (c.Login env username password).2 = .ok () ∧
    (∀ B, resp.CSRF = some B →
      (c.Login env username password).1 = { c with csrf := some B } ∧
      (∀ d, (c.Login env username password).1.envelope d = ⟨some B, d⟩) ∧
      (∀ u p, NewLoginRequest u p (c.Login env username password).1.csrf
        = some ⟨u, specPasswordHash u p B⟩)) ∧
    (resp.CSRF = none → (c.Login env username password).1.csrf = some A) := by
  rw [Login_decoded env c username password req data resp hreq hpost hdec]
  refine ⟨by simp [hcat, hcode], ?_, ?_⟩
  · intro B hB
    simp [hB, Client.envelope, NewLoginRequest_some]
  · intro hn
    simp [hn, hA]

/-- C9, amended. If `Login` returns an error, the client afterwards is the
client before the call unless a decoded response carried a CSRF pair `B`; in
that case the device rejected the login (`errorCategory` not `"ok"` or `errcode`
not 0) and the current pair afterwards is `B`. `Heartbeat`, `GetDeviceInfo` and
`GetHosts` leave the client as it was. -/
theorem Login_failure_state (env : Env) (c : Client) (username password : GoString)
    (err : GoError) (hfail : (c.Login env username password).2 = .error err) :
    ((∀ req data resp, NewLoginRequest username password c.csrf = some req →
        c.post env (str "/api/system/user_login") req = .ok data →
        env.json_UnmarshalLogin data = .ok resp → resp.CSRF = none) →
      (c.Login env username password).1 = c) ∧
    (∀ req data resp B, NewLoginRequest username password c.csrf = some req →
        c.post env (str "/api/system/user_login") req = .ok data →
        env.json_UnmarshalLogin data = .ok resp → resp.CSRF = some B →
      (c.Login env username password).1.csrf = some B ∧
      (resp.Error ≠ str "ok" ∨ resp.ErrorCode ≠ 0)) ∧
    (c.Heartbeat env).1 = c ∧ (c.GetDeviceInfo env).1 = c ∧ (c.GetHosts env).1 = c := by
  refine ⟨Login_not_decoded env c username password, ?_, ?_, ?_, ?_⟩
  · intro req data resp B hreq hpost hdec hB
    rw [Login_decoded env c username password req data resp hreq hpost hdec] at hfail ⊢
    refine ⟨by simp [hB], ?_⟩
    by_contra hcon
    simp only [not_or, not_not] at hcon
    simp [hcon.1, hcon.2] at hfail
  · unfold Client.Heartbeat
    split <;> rfl
  · unfold Client.GetDeviceInfo
    split <;> [rfl; rfl; split] <;> rfl
  · unfold Client.GetHosts
    split <;> [rfl; rfl; split] <;> rfl

/-! ## The model on concrete inputs -/

/-- The model of `sha256hex` on the FIPS 180-4 one-block message `abc`. -/
theorem sha256hex_abc :
    sha256hex (str "abc")
      = str "ba7816bf8f01cfea414140de5dae2223b00361a396177a9cb410ff61f20015ad" := by
  set_option maxRecDepth 1000000 in decide

/-- Witness of C7: the device answers `user_pass_err` with `errcode` 7. -/
theorem Login_errorCategory_not_ok_witness :
    (Client.Login
      (demo.env (str "/*{}*/") demo.emptyPage ⟨none, str "user_pass_err", 7⟩ demo.noInfo [])
      (demo.client ⟨str "p", str "t"⟩) (str "admin") (str "secret")).2
      = .error ⟨str "user_pass_err"⟩ :=
  Login_errorCategory_not_ok
    (demo.env (str "/*{}*/") demo.emptyPage ⟨none, str "user_pass_err", 7⟩ demo.noInfo [])
    (demo.client ⟨str "p", str "t"⟩) (str "admin") (str "secret") _ (str "{}")
    ⟨none, str "user_pass_err", 7⟩ rfl (by decide) rfl (by decide)

/-- Witness of C8: the pair is `pA`, `tA` and the device answers `ok` with `pB`, `tB`. -/
theorem Login_rotates_csrf_witness :
    (Client.Login
      (demo.env (str "/*{}*/") demo.emptyPage ⟨some ⟨str "pB", str "tB"⟩, str "ok", 0⟩ demo.noInfo [])
      (demo.client ⟨str "pA", str "tA"⟩) (str "admin") (str "secret")).2 = .ok () ∧
    (Client.Login
      (demo.env (str "/*{}*/") demo.emptyPage ⟨some ⟨str "pB", str "tB"⟩, str "ok", 0⟩ demo.noInfo [])
      (demo.client ⟨str "pA", str "tA"⟩) (str "admin") (str "secret")).1
      = { demo.client ⟨str "pA", str "tA"⟩ with csrf := some ⟨str "pB", str "tB"⟩ } :=
  have h := Login_rotates_csrf
    (demo.env (str "/*{}*/") demo.emptyPage ⟨some ⟨str "pB", str "tB"⟩, str "ok", 0⟩ demo.noInfo [])
    (demo.client ⟨str "pA", str "tA"⟩) ⟨str "pA", str "tA"⟩ (str "admin") (str "secret") _ (str "{}")
    ⟨some ⟨str "pB", str "tB"⟩, str "ok", 0⟩ rfl rfl (by decide) rfl rfl rfl
  ⟨h.1, (h.2.1 ⟨str "pB", str "tB"⟩ rfl).1⟩

/-- Witness of C9, amended: the device rejects the login with `user_pass_err`
and sends the pair `pB`, `tB`. -/
theorem Login_failure_state_witness :
    (Client.Login
      (demo.env (str "/*{}*/") demo.emptyPage ⟨some ⟨str "pB", str "tB"⟩, str "user_pass_err", 0⟩
        demo.noInfo [])
      (demo.client ⟨str "pA", str "tA"⟩) (str "admin") (str "secret")).1.csrf
      = some ⟨str "pB", str "tB"⟩ :=
  ((Login_failure_state
    (demo.env (str "/*{}*/") demo.emptyPage ⟨some ⟨str "pB", str "tB"⟩, str "user_pass_err", 0⟩
      demo.noInfo [])
    (demo.client ⟨str "pA", str "tA"⟩) (str "admin") (str "secret") ⟨str "user_pass_err"⟩
    (by decide)).2.1 _ (str "{}") ⟨some ⟨str "pB", str "tB"⟩, str "user_pass_err", 0⟩
      ⟨str "pB", str "tB"⟩ rfl (by decide) rfl rfl).1

/-- C9 as stated fails: the pair is `pA`, `tA`, the device answers
`user_pass_err` together with the pair `pB`, `tB`; `Login` returns that error
and the current pair afterwards is `pB`, `tB`. -/
theorem Login_failure_replaces_csrf :
    (demo.client ⟨str "pA", str "tA"⟩).csrf = some ⟨str "pA", str "tA"⟩ ∧
    Client.Login (demo.env (str "/*{}*/") demo.emptyPage
        ⟨some ⟨str "pB", str "tB"⟩, str "user_pass_err", 0⟩ demo.noInfo [])
      (demo.client ⟨str "pA", str "tA"⟩) (str "admin") (str "secret")
      = ({ demo.client ⟨str "pA", str "tA"⟩ with csrf := some ⟨str "pB", str "tB"⟩ },
         .error ⟨str "user_pass_err"⟩) ∧
    (⟨str "pB", str "tB"⟩ : CSRF) ≠ ⟨str "pA", str "tA"⟩ := by
  decide

/-- C10 fails on the code: a record whose `IPAddress` is `not-an-ip`, and one
whose `Ipv6Addrs` entry is `not-an-ip`, each with a valid hardware address; the
call returns no error and a host whose address list holds a nil address. -/
theorem GetHosts_keeps_malformed_ip :
    demo.parseIPv4 (str "not-an-ip") = [] ∧
    (Client.GetHosts
      (demo.env (str "/*[]*/") demo.emptyPage ⟨none, str "ok", 0⟩ demo.noInfo
        [demo.rawHost (str "not-an-ip") []])
      (demo.client ⟨str "p", str "t"⟩)).2
      = .ok [⟨str "PC", true, [0x00, 0x11, 0x22, 0xaa, 0xbb, 0xcc], [[]], str "SSID1", 3600⟩] ∧
    (Client.GetHosts
      (demo.env (str "/*[]*/") demo.emptyPage ⟨none, str "ok", 0⟩ demo.noInfo
        [demo.rawHost (str "") [[(str "Ipv6Addr", str "not-an-ip")]]])
      (demo.client ⟨str "p", str "t"⟩)).2
      = .ok [⟨str "PC", true, [0x00, 0x11, 0x22, 0xaa, 0xbb, 0xcc], [[]], str "SSID1", 3600⟩] := by
  decide

/-! ## Facts about `GetHosts` -/

theorem set_split (acc : List Host) (i n : Nat) (x : Host) (out : List Host)
    (h : i + (n + 1) ≤ acc.length) :
    (acc.set i x).take (i + 1) ++ out ++ (acc.set i x).drop (i + 1 + n)
      = acc.take i ++ x :: out ++ acc.drop (i + (n + 1)) := by
  have hi : i < acc.length := by omega
  rw [List.set_eq_take_append_cons_drop, if_pos hi]
  have h1 : (List.take i acc ++ x :: List.drop (i + 1) acc).take (i + 1) = acc.take i ++ [x] := by
    rw [List.take_append_eq_append_take]
    simp [List.length_take, Nat.min_eq_left (Nat.le_of_lt hi)]
  have h2 : (List.take i acc ++ x :: List.drop (i + 1) acc).drop (i + 1 + n)
      = acc.drop (i + (n + 1)) := by
    rw [List.drop_append_eq_append_drop]
    simp [List.length_take, Nat.min_eq_left (Nat.le_of_lt hi)]
    have e1 : i + 1 + n - i = n + 1 := by omega
    rw [List.drop_eq_nil_of_le (by simp; omega), e1]
    simp [List.drop_drop]
    congr 1
    omega
  rw [h1, h2]
  simp

/-- The address slice is the optional IPv4 entry followed by one entry per
element of the IPv6 list. -/
theorem addrs_eq (env : Env) (h : RawHost) :
    GetHosts.addrs env h =
      (if h.IPAddress ≠ [] then [IP.To4 (env.net_ParseIP h.IPAddress)] else []) ++
        h.Ipv6Addrs.map (fun addr => IP.To16 (env.net_ParseIP (mapIndex addr (str "Ipv6Addr")))) := by
  have key : ∀ (l : List (List (GoString × GoString))) (init : List IP),
      l.foldl (fun addrs addr =>
        addrs ++ [IP.To16 (env.net_ParseIP (mapIndex addr (str "Ipv6Addr")))]) init
      = init ++ l.map (fun addr => IP.To16 (env.net_ParseIP (mapIndex addr (str "Ipv6Addr")))) := by
    intro l
    induction l with
    | nil => intro init; simp
    | cons a t ih => intro init; simp [List.foldl_cons, ih]
  unfold GetHosts.addrs
  simp only [key, List.nil_append]

/-- With a hardware address that parses, the body returns the `Host` of the record. -/
theorem body_ok (env : Env) (h : RawHost) (mac : HardwareAddr)
    (hm : env.net_ParseMAC h.MACAddress = .ok mac) :
    GetHosts.body env h = .ok {
      Name := GetHosts.hostname h,
      IsConnected := h.Active46,
      InterfaceName := h.Layer2Interface,
      MACAddr := mac,
      IPAddrs := GetHosts.addrs env h,
      LeaseTime := h.LeaseTime } := by
  simp only [GetHosts.body, hm]

/-- The loop returns a list exactly when the body succeeds on every record; the
list is the old slice with the bodies' hosts written, in order, from index `i`. -/
theorem loop_ok_iff (env : Env) : ∀ (hs : List RawHost) (i : Nat) (acc res : List Host),
    i + hs.length ≤ acc.length →
    (GetHosts.loop env hs i acc = .ok res ↔
      ∃ out, List.Forall₂ (fun h host => GetHosts.body env h = .ok host) hs out ∧
        res = acc.take i ++ out ++ acc.drop (i + hs.length))
  | [], i, acc, res, _ => by
    simp only [GetHosts.loop, Res.ok.injEq, List.forall₂_nil_left_iff, List.length_nil,
      Nat.add_zero, exists_eq_left, List.append_nil, List.take_append_drop]
    exact eq_comm
  | h :: rest, i, acc, res, hlen => by
    simp only [List.length_cons] at hlen
    rw [GetHosts.loop]
    cases hm : env.net_ParseMAC h.MACAddress with
    | error err =>
      constructor
      · intro hcon
        cases hcon
      · rintro ⟨out, hf, -⟩
        cases hf with
        | cons hb _ => simp [GetHosts.body, hm] at hb
    | ok mac =>
      simp only
      rw [loop_ok_iff env rest (i + 1) _ res (by simp; omega)]
      constructor
      · rintro ⟨out, hf, hres⟩
        refine ⟨_ :: out, List.Forall₂.cons (body_ok env h mac hm) hf, ?_⟩
        rw [hres, set_split acc i rest.length _ out hlen]
        simp
      · rintro ⟨out, hf, hres⟩
        cases hf with
        | cons hb hf =>
          rename_i host out
          rw [body_ok env h mac hm] at hb
          simp only [Except.ok.injEq] at hb
          refine ⟨out, hf, ?_⟩
          rw [hres, set_split acc i rest.length _ out hlen, hb]
          simp

/-- The loop stops with the error of a record whose hardware address does not parse. -/
theorem loop_error (env : Env) : ∀ (hs : List RawHost) (i : Nat) (acc : List Host),
    (∃ h ∈ hs, ∃ e, env.net_ParseMAC h.MACAddress = .error e) →
    ∃ err, GetHosts.loop env hs i acc = .error err ∧
      ∃ h ∈ hs, env.net_ParseMAC h.MACAddress = .error err
  | [], _, _, hex => by
    obtain ⟨h, hmem, _⟩ := hex
    simp at hmem
  | h :: rest, i, acc, hex => by
    rw [GetHosts.loop]
    cases hm : env.net_ParseMAC h.MACAddress with
    | error err => exact ⟨err, rfl, h, by simp, hm⟩
    | ok mac =>
      obtain ⟨h', hmem, e, he⟩ := hex
      have hrest : ∃ h ∈ rest, ∃ e, env.net_ParseMAC h.MACAddress = .error e := by
        rcases List.mem_cons.1 hmem with rfl | hmem
        · rw [hm] at he
          cases he
        · exact ⟨h', hmem, e, he⟩
      obtain ⟨err, hloop, h2, hmem2, he2⟩ := loop_error env rest (i + 1) _ hrest
      exact ⟨err, hloop, h2, by simp [hmem2], he2⟩

/-- Related lists agree position by position. -/
theorem forall₂_getElem? {α β : Type} (R : α → β → Prop) :
    ∀ (l1 : List α) (l2 : List β), List.Forall₂ R l1 l2 →
      ∀ (i : Nat) (a : α), l1[i]? = some a → ∃ b, l2[i]? = some b ∧ R a b
  | _, _, .nil, i, a, h => by simp at h
  | _, _, .cons hr hf, 0, a, h => by
    simp only [List.getElem?_cons_zero, Option.some.injEq] at h
    subst h
    exact ⟨_, by simp, hr⟩
  | _, _, .cons _ hf, i + 1, a, h => by
    simp only [List.getElem?_cons_succ] at h ⊢
    exact forall₂_getElem? R _ _ hf i a h

/-- A successful `GetHosts` returns one host per record, each the body's host of
the record at the same index. -/
theorem GetHosts_ok (env : Env) (c : Client) (data : List Byte) (hostinfo : List RawHost)
    (hosts : List Host)
    (hget : c.get env (str "/api/system/HostInfo") = .ok data)
    (hdec : env.json_UnmarshalHostInfo data = .ok hostinfo)
    (hok : (c.GetHosts env).2 = .ok hosts) :
    hosts.length = hostinfo.length ∧
    ∀ (i : Nat) (h : RawHost), hostinfo[i]? = some h →
      ∃ host, hosts[i]? = some host ∧ GetHosts.body env h = .ok host := by
  simp only [Client.GetHosts, hget, hdec] at hok
  rw [loop_ok_iff env hostinfo 0 _ hosts (by simp)] at hok
  obtain ⟨out, hf, hres⟩ := hok
  simp at hres
  subst hres
  exact ⟨hf.length_eq.symm, forall₂_getElem? _ _ _ hf⟩

/-- The fields of the host the body returns. -/
theorem body_fields (env : Env) (h : RawHost) (host : Host)
    (hb : GetHosts.body env h = .ok host) :
    host.Name = GetHosts.hostname h ∧ host.IsConnected = h.Active46 ∧
    host.InterfaceName = h.Layer2Interface ∧ host.LeaseTime = h.LeaseTime ∧
    host.IPAddrs = GetHosts.addrs env h ∧ env.net_ParseMAC h.MACAddress = .ok host.MACAddr := by
  cases hm : env.net_ParseMAC h.MACAddress with
  | error err => simp [GetHosts.body, hm] at hb
  | ok mac =>
    rw [body_ok env h mac hm] at hb
    simp only [Except.ok.injEq] at hb
    subst hb
    simp

/-- `strings.TrimSuffix` removes a suffix that is there. -/
theorem TrimSuffix_append (b suffix : GoString) :
    strings.TrimSuffix (b ++ suffix) suffix = b := by
  have h : suffix.isSuffixOf (b ++ suffix) = true :=
    List.isSuffixOf_iff_suffix.2 (List.suffix_append b suffix)
  simp [strings.TrimSuffix, h]

/-- `strings.TrimSuffix` returns its argument when the suffix is not there. -/
theorem TrimSuffix_of_not_suffix (s suffix : GoString) (h : ¬ suffix <:+ s) :
    strings.TrimSuffix s suffix = s := by
  have h' : ¬ suffix.isSuffixOf s = true := fun hc => h (List.isSuffixOf_iff_suffix.1 hc)
  simp [strings.TrimSuffix, h']

/-- The name computed by the loop body, case by case. -/
theorem hostname_cases (h : RawHost) :
    (∀ b, h.HostName = b ++ str "_Wireless" → GetHosts.hostname h = b) ∧
    (¬ str "_Wireless" <:+ h.HostName →
      ∀ b, h.HostName = b ++ str "_Ethernet" → GetHosts.hostname h = b) ∧
    (¬ str "_Wireless" <:+ h.HostName → ¬ str "_Ethernet" <:+ h.HostName →
      GetHosts.hostname h = h.HostName) := by
  refine ⟨?_, ?_, ?_⟩
  · intro b hb
    have hne : ¬ b.length = (b ++ str "_Wireless").length := by
      have : (str "_Wireless").length = 9 := by decide
      simp [this]
    simp only [GetHosts.hostname, hb, TrimSuffix_append, if_neg hne]
  · intro hw b hb
    simp only [GetHosts.hostname, TrimSuffix_of_not_suffix _ _ hw, if_true]
    rw [hb, TrimSuffix_append]
  · intro hw he
    simp only [GetHosts.hostname, TrimSuffix_of_not_suffix _ _ hw, if_true,
      TrimSuffix_of_not_suffix _ _ he]

/-- C11. For every decoded host list in which some record has a `MACAddress`
that `net.ParseMAC` rejects, `GetHosts` returns an error and no list, however
many records before it were valid; the error is that of a rejected address. -/
theorem GetHosts_bad_mac_fails (env : Env) (c : Client) (data : List Byte)
    (hostinfo : List RawHost)
    (hget : c.get env (str "/api/system/HostInfo") = .ok data)
    (hdec : env.json_UnmarshalHostInfo data = .ok hostinfo)
    (hbad : ∃ h ∈ hostinfo, ∃ e, env.net_ParseMAC h.MACAddress = .error e) :
    ∃ err, (c.GetHosts env).2 = .error err ∧
      ∃ h ∈ hostinfo, env.net_ParseMAC h.MACAddress = .error err := by
  simp only [Client.GetHosts, hget, hdec]
  exact loop_error env hostinfo 0 _ hbad

/-- C12. In a successful `GetHosts`, the `Name` of the host at index `i` is the
raw name `n` of the record at index `i` without its suffix `_Wireless` if `n`
ends with it; otherwise without its suffix `_Ethernet` if `n` ends with that;
otherwise `n` itself. At most one suffix is removed. -/
theorem GetHosts_name (env : Env) (c : Client) (data : List Byte) (hostinfo : List RawHost)
    (hosts : List Host)
    (hget : c.get env (str "/api/system/HostInfo") = .ok data)
    (hdec : env.json_UnmarshalHostInfo data = .ok hostinfo)
    (hok : (c.GetHosts env).2 = .ok hosts)
    (i : Nat) (h : RawHost) (hi : hostinfo[i]? = some h) :
    ∃ host, hosts[i]? = some host ∧
      (∀ b, h.HostName = b ++ str "_Wireless" → host.Name = b) ∧
      (¬ str "_Wireless" <:+ h.HostName →
        ∀ b, h.HostName = b ++ str "_Ethernet" → host.Name = b) ∧
      (¬ str "_Wireless" <:+ h.HostName → ¬ str "_Ethernet" <:+ h.HostName →
        host.Name = h.HostName) := by
  obtain ⟨host, hhost, hb⟩ := (GetHosts_ok env c data hostinfo hosts hget hdec hok).2 i h hi
  refine ⟨host, hhost, ?_⟩
  rw [(body_fields env h host hb).1]
  exact hostname_cases h

/-- C13. For every decoded device-info record, `GetDeviceInfo` returns
`DeviceID = ManufacturerOUI ++ "-" ++ SerialNumber`,
`Model = DeviceName ++ " " ++ HardwareVersion`, `Version = SoftwareVersion` and
`Uptime = UpTime`. -/
theorem GetDeviceInfo_fields (env : Env) (c : Client) (data : List Byte) (info : RawDeviceInfo)
    (hget : c.get env (str "/api/system/deviceinfo") = .ok data)
    (hdec : env.json_UnmarshalDeviceInfo data = .ok info) :
    (c.GetDeviceInfo env).2 = .ok {
      DeviceID := info.ManufacturerOUI ++ str "-" ++ info.SerialNumber,
      Model := info.DeviceName ++ str " " ++ info.HardwareVersion,
      Version := info.SoftwareVersion,
      Uptime := info.UpTime } := by
  simp only [Client.GetDeviceInfo, hget, hdec]

/-- C14. In a successful `GetHosts`, the `IPAddrs` of the host at index `i` has
(1 if the raw `IPAddress` is non-empty, else 0) + `len(Ipv6Addrs)` entries: the
IPv4 entry first, present only when the raw field is non-empty, then one entry
per element of the raw IPv6 list, in list order, each read from its `Ipv6Addr`
key. -/
theorem GetHosts_addrs (env : Env) (c : Client) (data : List Byte) (hostinfo : List RawHost)
    (hosts : List Host)
    (hget : c.get env (str "/api/system/HostInfo") = .ok data)
    (hdec : env.json_UnmarshalHostInfo data = .ok hostinfo)
    (hok : (c.GetHosts env).2 = .ok hosts)
    (i : Nat) (h : RawHost) (hi : hostinfo[i]? = some h) :
    ∃ host, hosts[i]? = some host ∧
      host.IPAddrs =
        (if h.IPAddress ≠ [] then [IP.To4 (env.net_ParseIP h.IPAddress)] else []) ++
          h.Ipv6Addrs.map
            (fun addr => IP.To16 (env.net_ParseIP (mapIndex addr (str "Ipv6Addr")))) ∧
      host.IPAddrs.length = (if h.IPAddress ≠ [] then 1 else 0) + h.Ipv6Addrs.length := by
  obtain ⟨host, hhost, hb⟩ := (GetHosts_ok env c data hostinfo hosts hget hdec hok).2 i h hi
  have haddrs := (body_fields env h host hb).2.2.2.2.1
  rw [addrs_eq] at haddrs
  refine ⟨host, hhost, haddrs, ?_⟩
  rw [haddrs]
  by_cases hip : h.IPAddress = [] <;> simp [hip]
  omega

/-- C20. When `GetHosts` succeeds on a decoded list of `n` records it returns
exactly `n` hosts, and the host at index `i` has `IsConnected`, `InterfaceName`
and `LeaseTime` equal to `Active46`, `Layer2Interface` and `LeaseTime` of the
record at index `i`. -/
theorem GetHosts_same_order (env : Env) (c : Client) (data : List Byte)
    (hostinfo : List RawHost) (hosts : List Host)
    (hget : c.get env (str "/api/system/HostInfo") = .ok data)
    (hdec : env.json_UnmarshalHostInfo data = .ok hostinfo)
    (hok : (c.GetHosts env).2 = .ok hosts) :
    hosts.length = hostinfo.length ∧
    ∀ (i : Nat) (h : RawHost), hostinfo[i]? = some h →
      ∃ host, hosts[i]? = some host ∧ host.IsConnected = h.Active46 ∧
        host.InterfaceName = h.Layer2Interface ∧ host.LeaseTime = h.LeaseTime := by
  obtain ⟨hlen, hall⟩ := GetHosts_ok env c data hostinfo hosts hget hdec hok
  refine ⟨hlen, ?_⟩
  intro i h hi
  obtain ⟨host, hhost, hb⟩ := hall i h hi
  obtain ⟨-, h1, h2, h3, -, -⟩ := body_fields env h host hb
  exact ⟨host, hhost, h1, h2, h3⟩

/-- Witness of C11: three valid records, then one whose address is `00:11:22`. -/
theorem GetHosts_bad_mac_fails_witness :
    ∃ err,
      (Client.GetHosts
        (demo.hostEnv (demo.threeHosts ++ [demo.namedHost (str "Cam") (str "00:11:22")]))
        (demo.client ⟨str "p", str "t"⟩)).2 = .error err ∧
      ∃ h ∈ demo.threeHosts ++ [demo.namedHost (str "Cam") (str "00:11:22")],
        (demo.hostEnv (demo.threeHosts ++ [demo.namedHost (str "Cam") (str "00:11:22")])).net_ParseMAC
          h.MACAddress = .error err :=
  GetHosts_bad_mac_fails
    (demo.hostEnv (demo.threeHosts ++ [demo.namedHost (str "Cam") (str "00:11:22")]))
    (demo.client ⟨str "p", str "t"⟩) (str "[]") _ (by decide) rfl
    ⟨demo.namedHost (str "Cam") (str "00:11:22"), by decide,
      ⟨str "address 00:11:22: invalid MAC address"⟩, rfl⟩

/-- Witness of C12: the record at index 1 is named `TV_Wireless_Ethernet`. -/
theorem GetHosts_name_witness :
    ∃ host, demo.threeHostsOut[1]? = some host ∧
      (∀ b, (demo.namedHost (str "TV_Wireless_Ethernet") (str "00:11:22:aa:bb:cd")).HostName
          = b ++ str "_Wireless" → host.Name = b) ∧
      (¬ str "_Wireless" <:+
          (demo.namedHost (str "TV_Wireless_Ethernet") (str "00:11:22:aa:bb:cd")).HostName →
        ∀ b, (demo.namedHost (str "TV_Wireless_Ethernet") (str "00:11:22:aa:bb:cd")).HostName
          = b ++ str "_Ethernet" → host.Name = b) ∧
      (¬ str "_Wireless" <:+
          (demo.namedHost (str "TV_Wireless_Ethernet") (str "00:11:22:aa:bb:cd")).HostName →
        ¬ str "_Ethernet" <:+
          (demo.namedHost (str "TV_Wireless_Ethernet") (str "00:11:22:aa:bb:cd")).HostName →
        host.Name
          = (demo.namedHost (str "TV_Wireless_Ethernet") (str "00:11:22:aa:bb:cd")).HostName) :=
  GetHosts_name (demo.hostEnv demo.threeHosts) (demo.client ⟨str "p", str "t"⟩) (str "[]")
    demo.threeHosts demo.threeHostsOut (by decide) rfl (by decide) 1
    (demo.namedHost (str "TV_Wireless_Ethernet") (str "00:11:22:aa:bb:cd")) (by decide)

/-- Witness of C13: OUI `001122` and serial `XYZ`, name `HG659` and hardware
version `v2`. -/
theorem GetDeviceInfo_fields_witness :
    (Client.GetDeviceInfo
      (demo.env (str "/*{}*/") demo.emptyPage ⟨none, str "ok", 0⟩ demo.info [])
      (demo.client ⟨str "p", str "t"⟩)).2
      = .ok ⟨str "001122-XYZ", str "HG659 v2", str "V100R001", 86400⟩ :=
  (GetDeviceInfo_fields
    (demo.env (str "/*{}*/") demo.emptyPage ⟨none, str "ok", 0⟩ demo.info [])
    (demo.client ⟨str "p", str "t"⟩) (str "{}") demo.info (by decide) rfl).trans (by decide)

/-- Witness of C14: the record at index 0 has IPv4 text `192.168.1.20` and two
IPv6 elements, the second without an `Ipv6Addr` key. -/
theorem GetHosts_addrs_witness :
    ∃ host, demo.threeHostsOut[0]? = some host ∧
      host.IPAddrs =
        (if (demo.namedHost (str "PC_Wireless") (str "00:11:22:aa:bb:cc")).IPAddress ≠ [] then
            [IP.To4 ((demo.hostEnv demo.threeHosts).net_ParseIP
              (demo.namedHost (str "PC_Wireless") (str "00:11:22:aa:bb:cc")).IPAddress)]
          else []) ++
          (demo.namedHost (str "PC_Wireless") (str "00:11:22:aa:bb:cc")).Ipv6Addrs.map
            (fun addr => IP.To16 ((demo.hostEnv demo.threeHosts).net_ParseIP
              (mapIndex addr (str "Ipv6Addr")))) ∧
      host.IPAddrs.length =
        (if (demo.namedHost (str "PC_Wireless") (str "00:11:22:aa:bb:cc")).IPAddress ≠ [] then 1
          else 0) +
          (demo.namedHost (str "PC_Wireless") (str "00:11:22:aa:bb:cc")).Ipv6Addrs.length :=
  GetHosts_addrs (demo.hostEnv demo.threeHosts) (demo.client ⟨str "p", str "t"⟩) (str "[]")
    demo.threeHosts demo.threeHostsOut (by decide) rfl (by decide) 0
    (demo.namedHost (str "PC_Wireless") (str "00:11:22:aa:bb:cc")) (by decide)

/-- Witness of C20: three records give three hosts. -/
theorem GetHosts_same_order_witness :
    (Client.GetHosts (demo.hostEnv demo.threeHosts) (demo.client ⟨str "p", str "t"⟩)).2
      = .ok demo.threeHostsOut ∧
    demo.threeHostsOut.length = demo.threeHosts.length ∧
    ∀ (i : Nat) (h : RawHost), demo.threeHosts[i]? = some h →
      ∃ host, demo.threeHostsOut[i]? = some host ∧ host.IsConnected = h.Active46 ∧
        host.InterfaceName = h.Layer2Interface ∧ host.LeaseTime = h.LeaseTime :=
  ⟨by decide,
   GetHosts_same_order (demo.hostEnv demo.threeHosts) (demo.client ⟨str "p", str "t"⟩) (str "[]")
     demo.threeHosts demo.threeHostsOut (by decide) rfl (by decide)⟩

/-! ## Further facts about `Login`, `ExtractCSRF`, `ReadAll` and the hash -/

/-- C15. For every decoded login response with `errorCategory` equal to `"ok"`
and a nonzero `errcode`, `Login` returns the error `unknown error`; and for
every decoded login response `Login` returns no error exactly when
`errorCategory` is `"ok"` and `errcode` is 0. -/
theorem Login_errcode (env : Env) (c : Client) (username password : GoString)
    (req : LoginRequest) (data : List Byte) (resp : LoginResponse)
    (hreq : NewLoginRequest username password c.csrf = some req)
    (hpost : c.post env (str "/api/system/user_login") req = .ok data)
    (hdec : env.json_UnmarshalLogin data = .ok resp) :
    (resp.Error = str "ok" → resp.ErrorCode ≠ 0 →
      (c.Login env username password).2 = .error ⟨str "unknown error"⟩) ∧
    ((c.Login env username password).2 = .ok () ↔
      resp.Error = str "ok" ∧ resp.ErrorCode = 0) := by
  rw [Login_decoded env c username password req data resp hreq hpost hdec]
  refine ⟨?_, ?_⟩
  · intro hcat hcode
    simp [hcat, hcode]
  · by_cases hcat : resp.Error = str "ok" <;> by_cases hcode : resp.ErrorCode = 0 <;>
      simp [hcat, hcode]

/-- With a first attribute on every `meta` element and no match, the scan
returns the empty pair. -/
theorem ExtractCSRF_no_match (parse : Reader → Except GoError Node) (r : Reader) (doc : Node)
    (hparse : parse r = .ok doc)
    (hattr : ∀ m ∈ doc.metas, 1 ≤ m.length)
    (hnone : ∀ m ∈ doc.metas,
      ¬ firstValIs (str "csrf_param") m ∧ ¬ firstValIs (str "csrf_token") m) :
    ExtractCSRF parse r = .ok ⟨[], []⟩ := by
  have hb : ∀ m ∈ doc.metas, attrsInBounds m := by
    intro m hm
    refine ⟨hattr m hm, ?_⟩
    rintro (h | h)
    · exact absurd h (hnone m hm).1
    · exact absurd h (hnone m hm).2
  obtain ⟨c, hc, hp, ht⟩ := foldlM_onMeta_inBounds doc.metas ⟨[], []⟩ hb
  have h1 := hp (fun m hm => (hnone m hm).1)
  have h2 := ht (fun m hm => (hnone m hm).2)
  have : c = ⟨[], []⟩ := by
    cases c
    simp_all
  simp [ExtractCSRF, hparse, f_eq_foldlM, hc, this]

/-- C16 fails on the code: the page has one `meta` element, without attributes,
so no element has a first attribute value at all; `n.Attr[0]` is out of range
and `ExtractCSRF` panics. With `<meta charset="utf-8">` instead it returns the
empty pair. -/
theorem ExtractCSRF_panics_on_bare_meta :
    demo.bareMetaPage.metas = [[]] ∧
    (∀ m ∈ demo.bareMetaPage.metas,
      ¬ firstValIs (str "csrf_param") m ∧ ¬ firstValIs (str "csrf_token") m) ∧
    ExtractCSRF (fun _ => .ok demo.bareMetaPage) (.ok []) = .panic ∧
    ExtractCSRF (fun _ => .ok demo.charsetPage) (.ok []) = .ok ⟨[], []⟩ := by
  decide

/-- `NewClient` returns a client that holds the pair read from the page. -/
theorem NewClient_csrf (env : Env) (server : GoString) (c : Client)
    (h : NewClient env server = .ok c) : ∃ A, c.csrf = some A := by
  unfold NewClient at h
  cases hg : env.http_Get (env.url_String ⟨str "http", server, str "/"⟩) with
  | error err => simp [hg] at h
  | ok body =>
    simp only [hg] at h
    cases he : ExtractCSRF env.html_Parse body with
    | error err => simp [he] at h
    | panic => simp [he] at h
    | ok csrf =>
      simp only [he, Res.ok.injEq] at h
      exact ⟨csrf, by rw [← h]⟩

/-- A client returned by `NewClient` holds exactly the pair `ExtractCSRF` read
from the body of the landing page, on the base URL of the server. -/
theorem NewClient_extracted (env : Env) (server : GoString) (c : Client)
    (h : NewClient env server = .ok c) :
    ∃ body A, env.http_Get (env.url_String ⟨str "http", server, str "/"⟩) = .ok body ∧
      ExtractCSRF env.html_Parse body = .ok A ∧
      c = ⟨⟨str "http", server, str "/"⟩, some A⟩ := by
  unfold NewClient at h
  cases hg : env.http_Get (env.url_String ⟨str "http", server, str "/"⟩) with
  | error err => simp [hg] at h
  | ok body =>
    simp only [hg] at h
    cases he : ExtractCSRF env.html_Parse body with
    | error err => simp [he] at h
    | panic => simp [he] at h
    | ok csrf =>
      simp only [he, Res.ok.injEq] at h
      exact ⟨body, csrf, rfl, he, h.symm⟩

/-- After `Login` the pair is the one before the call, or the one carried by the
decoded response. -/
theorem Login_csrf_cases (env : Env) (c : Client) (username password : GoString) :
    (c.Login env username password).1.csrf = c.csrf ∨
    ∃ req data resp B, NewLoginRequest username password c.csrf = some req ∧
      c.post env (str "/api/system/user_login") req = .ok data ∧
      env.json_UnmarshalLogin data = .ok resp ∧ resp.CSRF = some B ∧
      (c.Login env username password).1.csrf = some B := by
  by_cases hex : ∃ req data resp B, NewLoginRequest username password c.csrf = some req ∧
      c.post env (str "/api/system/user_login") req = .ok data ∧
      env.json_UnmarshalLogin data = .ok resp ∧ resp.CSRF = some B
  · obtain ⟨req, data, resp, B, hreq, hpost, hdec, hB⟩ := hex
    refine Or.inr ⟨req, data, resp, B, hreq, hpost, hdec, hB, ?_⟩
    rw [Login_decoded env c username password req data resp hreq hpost hdec]
    simp [hB]
  · left
    rw [Login_not_decoded env c username password]
    intro req data resp hreq hpost hdec
    cases hc : resp.CSRF with
    | none => rfl
    | some B => exact absurd ⟨req, data, resp, B, hreq, hpost, hdec, hc⟩ hex

/-- C17, amended. In every session state reached by a successful `NewClient`
followed by any sequence of `Login` calls, the current CSRF pair is there (not
nil) when `Login` builds its POST, and it has every property `P` shared by the
pairs the device supplied: the one `ExtractCSRF` read from the landing page and
the one of each decoded login response that carries one. So `Param` and `Token`
are non-empty when the device supplied only pairs with non-empty fields. -/
theorem Reachable_csrf (P : CSRF → Prop) (c : Client) (h : Reachable P c) :
    ∃ A, c.csrf = some A ∧ P A := by
  induction h with
  | boot env server c hnew hP =>
    obtain ⟨body, A, hget, hextract, hc⟩ := NewClient_extracted env server c hnew
    exact ⟨A, by rw [hc], hP body A hget hextract⟩
  | login env c username password _ hP ih =>
    obtain ⟨A, hA, hPA⟩ := ih
    rcases Login_csrf_cases env c username password with hsame | ⟨req, data, resp, B, h1, h2, h3, h4, h5⟩
    · exact ⟨A, by rw [hsame, hA], hPA⟩
    · exact ⟨B, h5, hP req data resp B h1 h2 h3 h4⟩

/-- C18. For every byte buffer in which both markers occur, with `s` the index
of the first `/*` and `e` the index of the first `*/`, if `s + 2 ≤ e` then
`ReadAll` returns exactly the bytes at positions `s+2 .. e-1`: `e - (s+2)` bytes,
the `i`-th being the byte of the buffer at `s + 2 + i`. -/
theorem ReadAll_between_first_markers (data : List Byte) (s e : Nat)
    (hs : str "/*" <+: data.drop s) (hs' : ∀ j, j < s → ¬ str "/*" <+: data.drop j)
    (he : str "*/" <+: data.drop e) (he' : ∀ j, j < e → ¬ str "*/" <+: data.drop j)
    (hle : s + 2 ≤ e) :
    ∃ inner, ReadAll (.ok data) = .ok inner ∧ inner.length = e - (s + 2) ∧
      ∀ i, i < e - (s + 2) → inner[i]? = data[s + 2 + i]? := by
  have hlen : e + 2 ≤ data.length := by
    have h := he.length_le
    simp only [List.length_drop, str_close, List.length_cons, List.length_nil] at h
    omega
  have h1 : bytes.Index data (str "/*") = (s : Int) := Index_eq_of_first data _ s hs hs'
  have h2 : bytes.Index data (str "*/") = (e : Int) := Index_eq_of_first data _ e he he'
  have hne : ¬ ((s : Int) = -1 ∨ (e : Int) = -1) := by omega
  have hsl : slice data ((s : Int) + 2) (e : Int) = some ((data.take e).drop (s + 2)) := by
    unfold slice
    rw [if_pos (by omega)]
    have e1 : ((s : Int) + 2).toNat = s + 2 := by omega
    simp [e1]
  refine ⟨(data.take e).drop (s + 2), ?_, ?_, ?_⟩
  · simp only [ReadAll, h1, h2, if_neg hne, hsl]
  · simp only [List.length_drop, List.length_take]
    omega
  · intro i hi
    rw [List.getElem?_drop, List.getElem?_take_of_lt (by omega)]

/-- The request built by `NewLoginRequest` is the same for two pairs with the
same concatenation of `Param` and `Token`. -/
theorem NewLoginRequest_congr (username password : GoString) (c1 c2 : CSRF)
    (h : c1.Param ++ c1.Token = c2.Param ++ c2.Token) :
    NewLoginRequest username password (some c1) = NewLoginRequest username password (some c2) := by
  simp only [NewLoginRequest, List.append_assoc, h]

/-- C19. The login hash depends on the CSRF pair only through `Param ++ Token`:
for every username and password and all pairs `c1`, `c2` with
`c1.Param ++ c1.Token = c2.Param ++ c2.Token`, `NewLoginRequest` returns the
same request; and there are two distinct pairs with the same hash. -/
theorem NewLoginRequest_concat_only (username password : GoString) (c1 c2 : CSRF)
    (h : c1.Param ++ c1.Token = c2.Param ++ c2.Token) :
    NewLoginRequest username password (some c1) = NewLoginRequest username password (some c2) ∧
    (∃ r, NewLoginRequest username password (some c1) = some r) ∧
    ∃ d1 d2 : CSRF, d1 ≠ d2 ∧
      NewLoginRequest username password (some d1) = NewLoginRequest username password (some d2) :=
  ⟨NewLoginRequest_congr username password c1 c2 h,
   ⟨_, NewLoginRequest_some username password c1⟩,
   ⟨str "ab", str "c"⟩, ⟨str "a", str "bc"⟩, by decide,
   NewLoginRequest_congr username password _ _ (by decide)⟩

/-! ## Witnesses and evaluations -/

/-- Witness of C15: the device answers `ok` with `errcode` 3. -/
theorem Login_errcode_witness :
    (Client.Login
      (demo.env (str "/*{}*/") demo.emptyPage ⟨none, str "ok", 3⟩ demo.noInfo [])
      (demo.client ⟨str "p", str "t"⟩) (str "admin") (str "secret")).2
      = .error ⟨str "unknown error"⟩ :=
  (Login_errcode
    (demo.env (str "/*{}*/") demo.emptyPage ⟨none, str "ok", 3⟩ demo.noInfo [])
    (demo.client ⟨str "p", str "t"⟩) (str "admin") (str "secret") _ (str "{}")
    ⟨none, str "ok", 3⟩ rfl (by decide) rfl).1 rfl (by decide)

/-- Witness of C17, amended: bootstrap on the landing page with `p1`, `t1`, then
a login answered `ok` with the pair `pB`, `tB`. -/
theorem Reachable_csrf_witness :
    ∃ A, (Client.Login
        (demo.env (str "/*{}*/") demo.landingPage ⟨some ⟨str "pB", str "tB"⟩, str "ok", 0⟩
          demo.noInfo [])
        ⟨⟨str "http", str "192.168.1.1", str "/"⟩, some ⟨str "p1", str "t1"⟩⟩
        (str "admin") (str "secret")).1.csrf = some A ∧ A.nonEmpty :=
  Reachable_csrf CSRF.nonEmpty _
    (Reachable.login _ _ (str "admin") (str "secret")
      (Reachable.boot
        (demo.env (str "/*{}*/") demo.landingPage ⟨some ⟨str "pB", str "tB"⟩, str "ok", 0⟩
          demo.noInfo [])
        (str "192.168.1.1") _ (by decide)
        (fun body A _ hA => by
          have hpage : ExtractCSRF.f demo.landingPage ⟨[], []⟩ = some ⟨str "p1", str "t1"⟩ := by
            decide
          have hA' : ExtractCSRF (fun _ => Except.ok demo.landingPage) body
              = .ok ⟨str "p1", str "t1"⟩ := by
            simp only [ExtractCSRF, hpage]
          have hA'' : A = ⟨str "p1", str "t1"⟩ := (Res.ok.inj (hA'.symm.trans hA)).symm
          subst hA''
          decide))
      (fun req data resp B _ _ hdec hB => by
        have hresp : resp = ⟨some ⟨str "pB", str "tB"⟩, str "ok", 0⟩ := (Except.ok.inj hdec).symm
        subst hresp
        have hB' : B = ⟨str "pB", str "tB"⟩ := (Option.some.inj hB).symm
        subst hB'
        decide))

/-- C17 as stated fails: the landing page has no CSRF `meta` element, `NewClient`
succeeds with the pair `{"", ""}`, and `Login` on that state marshals the
envelope with that pair and returns no error. -/
theorem bootstrap_keeps_empty_pair :
    NewClient (demo.env (str "/*{}*/") demo.emptyPage ⟨none, str "ok", 0⟩ demo.noInfo [])
        (str "192.168.1.1")
      = .ok ⟨⟨str "http", str "192.168.1.1", str "/"⟩, some ⟨[], []⟩⟩ ∧
    Reachable (fun _ => True) ⟨⟨str "http", str "192.168.1.1", str "/"⟩, some ⟨[], []⟩⟩ ∧
    ¬ CSRF.nonEmpty ⟨[], []⟩ ∧
    (∀ req, Client.envelope ⟨⟨str "http", str "192.168.1.1", str "/"⟩, some ⟨[], []⟩⟩ req
      = ⟨some ⟨[], []⟩, req⟩) ∧
    (Client.Login (demo.env (str "/*{}*/") demo.emptyPage ⟨none, str "ok", 0⟩ demo.noInfo [])
        ⟨⟨str "http", str "192.168.1.1", str "/"⟩, some ⟨[], []⟩⟩ (str "admin") (str "secret")).2
      = .ok () :=
  ⟨by decide,
   Reachable.boot
     (demo.env (str "/*{}*/") demo.emptyPage ⟨none, str "ok", 0⟩ demo.noInfo [])
     (str "192.168.1.1") _ (by decide) (fun _ _ _ _ => trivial),
   by decide, fun _ => rfl, by decide⟩

/-- Witness of C18: in `ab/*hello*/c*/d` the first `/*` is at 2 and the first
`*/` at 9. -/
theorem ReadAll_between_first_markers_witness :
    ∃ inner, ReadAll (.ok (str "ab/*hello*/c*/d")) = .ok inner ∧ inner.length = 9 - (2 + 2) ∧
      ∀ i, i < 9 - (2 + 2) → inner[i]? = (str "ab/*hello*/c*/d")[2 + 2 + i]? :=
  ReadAll_between_first_markers (str "ab/*hello*/c*/d") 2 9 (by decide) (by decide) (by decide)
    (by decide) (by decide)

/-- Witness of C19: the pairs `{"ab", "c"}` and `{"a", "bc"}`. -/
theorem NewLoginRequest_concat_only_witness :
    NewLoginRequest (str "user") (str "pass") (some ⟨str "ab", str "c"⟩)
      = NewLoginRequest (str "user") (str "pass") (some ⟨str "a", str "bc"⟩) ∧
    (⟨str "ab", str "c"⟩ : CSRF) ≠ ⟨str "a", str "bc"⟩ :=
  ⟨(NewLoginRequest_concat_only (str "user") (str "pass") ⟨str "ab", str "c"⟩ ⟨str "a", str "bc"⟩
      (by decide)).1,
   by decide⟩

end HG659
